import Mathlib

/-!
Verification development for the MEDLINE citation field-extraction engine
(pubmed_parser: medline_parser.py and utils.py).

The XML document tree is shallowly embedded as the inductive `Elem`
(tag, attributes, direct text, children, tail text), mirroring the lxml
element interface actually used by the code: find-first-by-path,
find-all-by-path, attribute lookup, direct children, and inline text
concatenation (itertext).  Python strings are Lean `String`s; Python
`None` for a text field is `Option.none`; code paths that would raise a
Python exception are modelled with `Except String`.
-/

mutual
inductive Elem where
  | mk (tag : String) (attrib : List (String × String)) (text : Option String)
       (children : ElemList) (tail : Option String)
inductive ElemList where
  | nil
  | cons (head : Elem) (rest : ElemList)
end

def Elem.tag : Elem → String
  | .mk t _ _ _ _ => t

def Elem.attrib : Elem → List (String × String)
  | .mk _ a _ _ _ => a

def Elem.text : Elem → Option String
  | .mk _ _ tx _ _ => tx

def Elem.tail : Elem → Option String
  | .mk _ _ _ _ tl => tl

def ElemList.toList : ElemList → List Elem
  | .nil => []
  | .cons x xs => x :: xs.toList

def elist : List Elem → ElemList
  | [] => .nil
  | x :: xs => .cons x (elist xs)

/-- Smart constructor building an element from a plain list of children. -/
def el (tag : String) (attrib : List (String × String)) (text : Option String)
    (children : List Elem) (tail : Option String) : Elem :=
  .mk tag attrib text (elist children) tail

def Elem.childList : Elem → List Elem
  | .mk _ _ _ ch _ => ch.toList

/-- Attribute lookup with default, modelling Python `elem.attrib.get(k, d)`. -/
def attribGet (e : Elem) (k d : String) : String :=
  match e.attrib.find? (fun kv => kv.1 == k) with
  | some kv => kv.2
  | none => d

def childrenTagged (e : Elem) (t : String) : List Elem :=
  e.childList.filter (fun c => c.tag == t)

def strOf (l : List Char) : String := String.mk l

/-- Split a find-path on the slash character, as ElementPath does. -/
def splitSlashGo (cur : List Char) : List Char → List (List Char)
  | [] => [cur.reverse]
  | c :: rest => if c == '/' then cur.reverse :: splitSlashGo [] rest
                 else splitSlashGo (c :: cur) rest

def splitPath (p : String) : List String :=
  (splitSlashGo [] p.data).map strOf

/-- All elements matching a relative child path, in document order
(`elem.findall(path)` with a path of slash-separated tag segments). -/
def findallPathSegs (segs : List String) (e : Elem) : List Elem :=
  segs.foldl (fun acc t => acc.flatMap (fun x => childrenTagged x t)) [e]

def findallPathS (e : Elem) (p : String) : List Elem :=
  findallPathSegs (splitPath p) e

/-- First element matching a relative child path (`elem.find(path)`). -/
def findPath (e : Elem) (p : String) : Option Elem :=
  (findallPathS e p).head?

mutual
/-- Preorder list of an element and all of its descendants. -/
def allNodesE : Elem → List Elem
  | e@(.mk _ _ _ ch _) => e :: allNodesEL ch
termination_by structural e => e
def allNodesEL : ElemList → List Elem
  | .nil => []
  | .cons c cs => allNodesE c ++ allNodesEL cs
termination_by structural l => l
end

/-- Descendant search `tree.findall('//Seg1/Seg2...')`: the first segment
matches at any depth, the remaining segments are child steps. -/
def findallDeepPath (root : Elem) (segs : List String) : List Elem :=
  match segs with
  | [] => []
  | t :: rest => ((allNodesE root).filter (fun x => x.tag == t)).flatMap
      (fun x => findallPathSegs rest x)

mutual
/-- Concatenation of all text content in document order (`node.itertext()`
joined): the node text, then recursively each child followed by its tail. -/
def itertextE : Elem → String
  | .mk _ _ tx ch _ => (tx.getD "") ++ itertextL ch
termination_by structural e => e
def itertextL : ElemList → String
  | .nil => ""
  | .cons c cs => itertextE c ++ (c.tail.getD "") ++ itertextL cs
termination_by structural l => l
end

/-- Text nodes of the children with a given tag (`elem.xpath('T/text()')`):
for each child tagged `t`, its direct text followed by its children's tails. -/
def textNodesOf (e : Elem) (t : String) : List String :=
  (childrenTagged e t).flatMap
    (fun ti => (match ti.text with | some s => [s] | none => []) ++
               ti.childList.filterMap (fun c => c.tail))

/-! Python string primitives, defined charwise so that proofs can proceed by
list induction. -/

/-- Characters stripped by Python `str.strip()` (the Unicode whitespace set). -/
def pyWsChars : List Char :=
  ['\t', '\n', '\x0B', '\x0C', '\r', '\x1C', '\x1D', '\x1E', '\x1F', ' ',
   Char.ofNat 0x85, Char.ofNat 0xA0, Char.ofNat 0x1680,
   Char.ofNat 0x2000, Char.ofNat 0x2001, Char.ofNat 0x2002, Char.ofNat 0x2003,
   Char.ofNat 0x2004, Char.ofNat 0x2005, Char.ofNat 0x2006, Char.ofNat 0x2007,
   Char.ofNat 0x2008, Char.ofNat 0x2009, Char.ofNat 0x200A, Char.ofNat 0x2028,
   Char.ofNat 0x2029, Char.ofNat 0x202F, Char.ofNat 0x205F, Char.ofNat 0x3000]

def pyWsB (c : Char) : Bool := c ∈ pyWsChars

/-- Drop trailing characters satisfying the whitespace test. -/
def stripEndL : List Char → List Char
  | [] => []
  | c :: rest =>
    let r := stripEndL rest
    if r.isEmpty && pyWsB c then [] else c :: r

def stripL (l : List Char) : List Char := stripEndL (l.dropWhile pyWsB)

/-- Python `s.strip()` with no arguments. -/
def pyStrip (s : String) : String := strOf (stripL s.data)

/-- Python `s or ''` for a string `s` (the empty string is falsy). -/
def orEmpty (s : String) : String := if s == "" then "" else s

/-- Python `x or ''` where `x` is a string or None. -/
def orEmptyOpt (o : Option String) : String :=
  match o with
  | some s => orEmpty s
  | none => ""

/-- Collapse runs of ASCII spaces to a single space, `re.sub(' +', ' ', s)`. -/
def collapseL : List Char → List Char
  | [] => []
  | [c] => [c]
  | c :: d :: rest =>
    if c == ' ' && d == ' ' then collapseL (d :: rest)
    else c :: collapseL (d :: rest)

def collapseSpaces (s : String) : String := strOf (collapseL s.data)

/-- Python `s.replace(c, "")` for a single character. -/
def removeChar (c : Char) (s : String) : String :=
  strOf (s.data.filter (fun d => d ≠ c))

/-- Python `sep.join(xs)`. -/
def pyJoin (sep : String) : List String → String
  | [] => ""
  | [x] => x
  | x :: xs => x ++ sep ++ pyJoin sep xs

def startsWithL : List Char → List Char → Bool
  | [], _ => true
  | _ :: _, [] => false
  | p :: ps, c :: cs => p == c && startsWithL ps cs

def containsSubL (p : List Char) : List Char → Bool
  | [] => p.isEmpty
  | s@(_ :: rest) => startsWithL p s || containsSubL p rest

/-- Python substring test `p in s`. -/
def pyIn (p s : String) : Bool := containsSubL p.data s.data

def exceptIsOk {α : Type} : Except String α → Bool
  | .ok _ => true
  | .error _ => false

def orRaise {α : Type} (o : Option α) (msg : String) : Except String α :=
  match o with
  | some x => .ok x
  | none => .error msg

/-- Exception-propagating list map, modelling Python `list(map(f, xs))` where
`f` may raise: the first exception aborts the whole traversal. -/
def mapE {α β : Type} (f : α → Except String β) : List α → Except String (List β)
  | [] => .ok []
  | x :: xs => do
    let y ← f x
    let ys ← mapE f xs
    .ok (y :: ys)

/-! Embedding of utils.py. -/

/-- Non-empty month abbreviations, `filter(None, calendar.month_abbr)`. -/
def month_abbrs : List String :=
  ["Jan", "Feb", "Mar", "Apr", "May", "Jun",
   "Jul", "Aug", "Sep", "Oct", "Nov", "Dec"]

/-- Python `s.isdigit()` restricted to ASCII digits. -/
def pyIsDigit (s : String) : Bool :=
  !s.data.isEmpty && s.data.all (fun c => c.isDigit)

def natOfDigits (s : String) : Nat :=
  s.data.foldl (fun n c => n * 10 + (c.toNat - '0'.toNat)) 0

/-- Zero-pad to two digits, `("0" if n < 10 else "") + str(n)`. -/
def twoPad (n : Nat) : String :=
  (if n < 10 then "0" else "") ++ toString n

/-- month_or_day_formater from utils.py: a value in `calendar.month_abbr`
(after removing periods, compared case-sensitively) maps to its 1-based
month number; otherwise a digit-only string (with no period anywhere in the
original) parses as an integer; anything else returns None. -/
def month_or_day_formater (month_or_day : String) : Option String :=
  if month_abbrs.contains (removeChar '.' month_or_day) then
    some (twoPad (month_abbrs.indexOf (removeChar '.' month_or_day) + 1))
  else if pyIsDigit (pyStrip month_or_day) && !(month_or_day.data.contains '.') then
    some (twoPad (natOfDigits (pyStrip month_or_day)))
  else
    none

mutual
/-- Inline text of an element in which every sub/sup element contributes its
bracket strings around its content; models stringify_children's
serialize-replace-reparse on markup whose sub/sup tags carry no attributes. -/
def markedE (sb sp : String × String) : Elem → String
  | .mk tg _ tx ch _ =>
    if tg == "sub" then sb.1 ++ (tx.getD "") ++ markedL sb sp ch ++ sb.2
    else if tg == "sup" then sp.1 ++ (tx.getD "") ++ markedL sb sp ch ++ sp.2
    else (tx.getD "") ++ markedL sb sp ch
termination_by structural e => e
def markedL (sb sp : String × String) : ElemList → String
  | .nil => ""
  | .cons c cs => markedE sb sp c ++ (c.tail.getD "") ++ markedL sb sp cs
termination_by structural l => l
end

/-- stringify_children from utils.py: with no bracket pairs it is the plain
itertext concatenation; with bracket pairs, absent pairs default to
`["",""]` and sub/sup markup is replaced by the bracket strings. -/
def stringify_children (node : Elem)
    (subscpt supscpt : Option (String × String)) : String :=
  match subscpt, supscpt with
  | none, none => itertextE node
  | _, _ => markedE (subscpt.getD ("", "")) (supscpt.getD ("", "")) node

/-! Embedding of medline_parser.py. -/

/-- Value of one output-record field: a Python string, Python None, or the
`np.nan` missing-value marker used for deleted-citation stubs. -/
inductive FieldVal where
  | str : String → FieldVal
  | pynone : FieldVal
  | nan : FieldVal
deriving DecidableEq, Repr

def FieldVal.ofOpt : Option String → FieldVal
  | some s => .str s
  | none => .pynone

def FieldVal.isString : FieldVal → Bool
  | .str _ => true
  | _ => false

structure MedlineRecord where
  title : FieldVal
  abstract : FieldVal
  journal : FieldVal
  author : FieldVal
  affiliation : FieldVal
  pubdate : FieldVal
  pmid : FieldVal
  mesh_terms : FieldVal
  publication_types : FieldVal
  chemical_list : FieldVal
  keywords : FieldVal
  doi : FieldVal
  pmc : FieldVal
  other_id : FieldVal
  medline_ta : FieldVal
  nlm_unique_id : FieldVal
  issn_linking : FieldVal
  country : FieldVal
  delete : Bool
deriving DecidableEq, Repr

/-- parse_pmid: text of the first PMID child, empty string when absent; the
text itself may be Python None. -/
def parse_pmid (medline : Elem) : Option String :=
  match findPath medline "PMID" with
  | some e => e.text
  | none => some ""

/-- One MeshHeading child: `m.find('DescriptorName')` is dereferenced for its
UI attribute and its text, raising when the child or its text is absent. -/
def meshTermOf (m : Elem) : Except String String :=
  match findPath m "DescriptorName" with
  | none => .error "AttributeError: NoneType object has no attribute attrib"
  | some d =>
    match d.text with
    | none => .error "TypeError: can only concatenate str to str"
    | some t => .ok (attribGet d "UI" "" ++ ":" ++ t)

def parse_mesh_terms (medline : Elem) : Except String String :=
  match findPath medline "MeshHeadingList" with
  | some mesh => do
    let terms ← mapE meshTermOf mesh.childList
    pure (pyJoin "; " terms)
  | none => pure ""

/-- One PublicationType element: UI attribute plus stripped text; raises when
the text is absent. -/
def pubTypeOf (p : Elem) : Except String String :=
  match p.text with
  | none => .error "AttributeError: NoneType object has no attribute strip"
  | some t => .ok (attribGet p "UI" "" ++ ":" ++ orEmpty (pyStrip t))

def parse_publication_types (medline : Elem) : Except String String := do
  let lst ← match findPath medline "Article/PublicationTypeList" with
    | some ptl => mapE pubTypeOf (findallPathS ptl "PublicationType")
    | none => pure []
  pure (pyJoin "; " lst)

def parse_keywords (medline : Elem) : String :=
  match findPath medline "KeywordList" with
  | some kl => pyJoin "; " ((findallPathS kl "Keyword").filterMap (fun k => k.text))
  | none => ""

/-- One Chemical element: `chemical.find('NameOfSubstance')` is dereferenced,
raising when that child or its text is absent. -/
def chemicalOf (chem : Elem) : Except String String :=
  match findPath chem "NameOfSubstance" with
  | none => .error "AttributeError: NoneType object has no attribute attrib"
  | some sn =>
    match sn.text with
    | none => .error "AttributeError: NoneType object has no attribute strip"
    | some t => .ok (attribGet sn "UI" "" ++ ":" ++ orEmpty (pyStrip t))

def parse_chemical_list (medline : Elem) : Except String String := do
  let lst ← match findPath medline "ChemicalList" with
    | some chemicals => mapE chemicalOf (findallPathS chemicals "Chemical")
    | none => pure []
  pure (pyJoin "; " lst)

structure OtherIds where
  pmc : String
  other_id : String
deriving DecidableEq, Repr

/-- Loop of parse_other_id: text containing "PMC" overwrites the pmc slot,
all other texts accumulate; `'PMC' in oid.text` raises when text is None. -/
def otherIdLoop : List Elem → String → List String → Except String (String × List String)
  | [], pmc, acc => .ok (pmc, acc)
  | o :: os, pmc, acc =>
    match o.text with
    | none => .error "TypeError: argument of type NoneType is not iterable"
    | some t =>
      if pyIn "PMC" t then otherIdLoop os t acc
      else otherIdLoop os pmc (acc ++ [t])

def parse_other_id (medline : Elem) : Except String OtherIds := do
  let r ← otherIdLoop (findallPathS medline "OtherID") "" []
  pure { pmc := r.1, other_id := pyJoin "; " r.2 }

structure JournalInfo where
  medline_ta : String
  nlm_unique_id : String
  issn_linking : Option String
  country : String
deriving DecidableEq, Repr

/-- parse_journal_info: MedlineTA, NlmUniqueID and Country default absent text
to the empty string, but ISSNLinking takes the raw text (possibly None). -/
def parse_journal_info (medline : Elem) : JournalInfo :=
  match findPath medline "MedlineJournalInfo" with
  | some ji =>
    let medline_ta := match findPath ji "MedlineTA" with
      | some e => orEmptyOpt e.text
      | none => ""
    let nlm_unique_id := match findPath ji "NlmUniqueID" with
      | some e => orEmptyOpt e.text
      | none => ""
    let issn_linking : Option String := match findPath ji "ISSNLinking" with
      | some e => e.text
      | none => some ""
    let country := match findPath ji "Country" with
      | some e => orEmptyOpt e.text
      | none => ""
    { medline_ta := pyStrip medline_ta, nlm_unique_id := nlm_unique_id,
      issn_linking := issn_linking, country := country }
  | none =>
    { medline_ta := pyStrip "", nlm_unique_id := "",
      issn_linking := some "", country := "" }

/-- Loop of parse_doi: each ELocationID overwrites the result with its
stripped text when its EIdType is doi and with the empty string otherwise;
a doi-typed entry with absent text raises. -/
def doiLoop : List Elem → String → Except String String
  | [], doi => .ok doi
  | e :: rest, _ =>
    if attribGet e "EIdType" "" == "doi" then
      match e.text with
      | some t => doiLoop rest (orEmpty (pyStrip t))
      | none => .error "AttributeError: NoneType object has no attribute strip"
    else doiLoop rest ""

def parse_doi (medline : Elem) : Except String String := do
  let article ← orRaise (findPath medline "Article")
    "AttributeError: NoneType object has no attribute findall"
  doiLoop (findallPathS article "ELocationID") ""

/-- First run of four consecutive digits, `re.findall(r'\d{4}', s)[0]` when a
match exists. -/
def firstFour : List Char → Option String
  | a :: b :: c :: d :: rest =>
    if a.isDigit && b.isDigit && c.isDigit && d.isDigit then
      some (strOf [a, b, c, d])
    else firstFour (b :: c :: d :: rest)
  | _ => none

/-- Year resolution of date_extractor on the PubDate element: the Year text
when a Year child exists, else the first four-digit run of the MedlineDate
text (empty string when none), else the empty string.  A MedlineDate child
with absent text raises. -/
def yearOfE (issue_date : Elem) : Except String (Option String) :=
  match findPath issue_date "Year" with
  | some ye => .ok ye.text
  | none =>
    match findPath issue_date "MedlineDate" with
    | some me =>
      match me.text with
      | none => .error "TypeError: expected string or bytes-like object"
      | some t => .ok (some (match firstFour t.data with
                             | some y => y
                             | none => ""))
    | none => .ok (some "")

/-- Month resolution of date_extractor: only attempted inside the Year branch
when a Month child exists; a Month with absent text raises inside the
formatter. -/
def monthOfE (issue_date : Elem) : Except String (Option String) :=
  match findPath issue_date "Year" with
  | none => .ok none
  | some _ =>
    match findPath issue_date "Month" with
    | none => .ok none
    | some me =>
      match me.text with
      | none => .error "AttributeError: NoneType object has no attribute replace"
      | some mt => .ok (month_or_day_formater mt)

/-- Day resolution of date_extractor: only attempted when both Year and Month
children exist (whatever the month resolved to). -/
def dayOfE (issue_date : Elem) : Except String (Option String) :=
  match findPath issue_date "Year", findPath issue_date "Month" with
  | some _, some _ =>
    match findPath issue_date "Day" with
    | none => .ok none
    | some de =>
      match de.text with
      | none => .error "AttributeError: NoneType object has no attribute replace"
      | some dt => .ok (month_or_day_formater dt)
  | _, _ => .ok none

/-- Python `filter(None, xs)` over year/month/day: drop None and empty strings. -/
def filterFalsy (l : List (Option String)) : List String :=
  l.filterMap (fun o => match o with
    | some s => if s == "" then none else some s
    | none => none)

/-- date_extractor from medline_parser.py.  `journal.xpath('JournalIssue')[0]`
raises on an empty result and `issue.find('PubDate')` is dereferenced, so both
are modelled as exceptions; the final result is the year alone when
year_info_only is set or no month was resolved, and otherwise the hyphen-join
of the truthy components. -/
def date_extractor (journal : Elem) (year_info_only : Bool) :
    Except String (Option String) := do
  let issue ← orRaise (findallPathS journal "JournalIssue").head?
    "IndexError: list index out of range"
  let issue_date ← orRaise (findPath issue "PubDate")
    "AttributeError: NoneType object has no attribute find"
  let year ← yearOfE issue_date
  let month ← if year_info_only then pure none else monthOfE issue_date
  let day ← if year_info_only then pure none else dayOfE issue_date
  if year_info_only || month.isNone then
    pure year
  else
    pure (some (pyJoin "-" (filterFalsy [year, month, day])))

/-- Module-level constant inp_list: the Unicode space variants (including the
ordinary space and the zero-width space U+200B) and their replacement. -/
def inp_list : List Char × Char :=
  ([' ', Char.ofNat 0xA0, Char.ofNat 0x180E,
    Char.ofNat 0x2000, Char.ofNat 0x2001, Char.ofNat 0x2002, Char.ofNat 0x2003,
    Char.ofNat 0x2004, Char.ofNat 0x2005, Char.ofNat 0x2006, Char.ofNat 0x2007,
    Char.ofNat 0x2008, Char.ofNat 0x2009, Char.ofNat 0x200A, Char.ofNat 0x200B,
    Char.ofNat 0x202F, Char.ofNat 0x205F, Char.ofNat 0x3000, Char.ofNat 0xFEFF],
   ' ')

/-- replace_multiple: substitute every character of the first component by the
replacement.  The Python original chains single-character `str.replace`
calls, which is equivalent to this single character map because every
pattern and the replacement are single characters. -/
def replace_multiple (p : List Char × Char) (s : String) : String :=
  strOf (s.data.map (fun c => if c ∈ p.1 then p.2 else c))

/-- The two normalization lines applied to the title and the abstract:
replace Unicode space variants, remove newlines, collapse space runs,
strip (`re.sub(' +', ' ', x.replace("\n", "")).strip()` after
`replace_multiple(inp_list, x)`). -/
def normalizeWhitespace (s : String) : String :=
  pyStrip (collapseSpaces (removeChar '\n' (replace_multiple inp_list s)))

/-- parse_article_info from medline_parser.py, assembling one non-deleted
record; exceptions of the component extractors propagate. -/
def parse_article_info (medline : Elem) (year_info_only nlm_category : Bool)
    (subscpt supscpt : Option (String × String)) (incl_sections : Bool) :
    Except String MedlineRecord := do
  let article ← orRaise (findPath medline "Article")
    "AttributeError: NoneType object has no attribute find"
  let title0 :=
    match findPath article "ArticleTitle" with
    | some t => orEmpty (pyStrip (stringify_children t subscpt supscpt))
    | none => ""
  let title := normalizeWhitespace title0
  let abstract0 :=
    match findPath article "Abstract/AbstractText" with
    | some single =>
      let absAll := findallPathS article "Abstract/AbstractText"
      if 1 < absAll.length then
        let category := if nlm_category then "NlmCategory" else "Label"
        let abstract_list := absAll.flatMap (fun ab =>
          (if incl_sections then
            (if attribGet ab category "" ≠ "UNASSIGNED" then
               ["\n", attribGet ab category ""]
             else [])
           else []) ++
          [pyStrip (stringify_children ab subscpt supscpt)])
        pyStrip (pyJoin " " abstract_list)
      else orEmpty (pyStrip (stringify_children single subscpt supscpt))
    | none =>
      match findPath article "Abstract" with
      | some a => orEmpty (pyStrip (stringify_children a subscpt supscpt))
      | none => ""
  let abstract := normalizeWhitespace abstract0
  let authorAff : String × String :=
    match findPath article "AuthorList" with
    | some al =>
      let datas := al.childList.map (fun author =>
        ((match findPath author "Initials" with
          | some e => orEmptyOpt e.text
          | none => ""),
         (match findPath author "LastName" with
          | some e => orEmptyOpt e.text
          | none => ""),
         (match findPath author "AffiliationInfo/Affiliation" with
          | some e => orEmptyOpt e.text
          | none => "")))
      (pyJoin "; " (datas.map (fun p => pyStrip (p.1 ++ " " ++ p.2.1))),
       pyJoin "\n" ((datas.map (fun p => p.2.2)).filter (fun a => a ≠ "")))
    | none => ("", "")
  let journal ← orRaise (findPath article "Journal")
    "AttributeError: NoneType object has no attribute xpath"
  let journal_name := pyJoin " " (textNodesOf journal "Title")
  let pubdate ← date_extractor journal year_info_only
  let pmid := parse_pmid medline
  let doi ← parse_doi medline
  let mesh_terms ← parse_mesh_terms medline
  let publication_types ← parse_publication_types medline
  let chemical_list ← parse_chemical_list medline
  let keywords := parse_keywords medline
  let otherIds ← parse_other_id medline
  let ji := parse_journal_info medline
  pure { title := .str title
       , abstract := .str abstract
       , journal := .str journal_name
       , author := .str authorAff.1
       , affiliation := .str authorAff.2
       , pubdate := .ofOpt pubdate
       , pmid := .ofOpt pmid
       , mesh_terms := .str mesh_terms
       , publication_types := .str publication_types
       , chemical_list := .str chemical_list
       , keywords := .str keywords
       , doi := .str doi
       , pmc := .str otherIds.pmc
       , other_id := .str otherIds.other_id
       , medline_ta := .str ji.medline_ta
       , nlm_unique_id := .str ji.nlm_unique_id
       , issn_linking := .ofOpt ji.issn_linking
       , country := .str ji.country
       , delete := false }

/-- Deleted-citation stub: pmid from the notice text, delete true, and every
other field the np.nan missing marker. -/
def stubRecord (p : Elem) : MedlineRecord :=
  { title := .nan, abstract := .nan, journal := .nan, author := .nan
  , affiliation := .nan, pubdate := .nan, pmid := .ofOpt p.text
  , mesh_terms := .nan, publication_types := .nan, chemical_list := .nan
  , keywords := .nan, doi := .nan, pmc := .nan, other_id := .nan
  , medline_ta := .nan, nlm_unique_id := .nan, issn_linking := .nan
  , country := .nan, delete := true }

/-- Citation selection of parse_medline_xml: all MedlineCitationSet-wrapped
citations, falling back to bare MedlineCitation elements when there are none. -/
def citationsOf (tree : Elem) : List Elem :=
  let cits0 := findallDeepPath tree ["MedlineCitationSet", "MedlineCitation"]
  if cits0.length == 0 then findallDeepPath tree ["MedlineCitation"] else cits0

/-- parse_medline_xml over an already-parsed tree: assemble one record per
citation (with incl_sections left at its default False) and append one stub
per DeleteCitation/PMID notice.  Its configuration surface is exactly
year_info_only, nlm_category, subscpt and supscpt. -/
def parse_medline_xml (tree : Elem) (year_info_only nlm_category : Bool)
    (subscpt supscpt : Option (String × String)) :
    Except String (List MedlineRecord) := do
  let article_list ← mapE
    (fun m => parse_article_info m year_info_only nlm_category subscpt supscpt false)
    (citationsOf tree)
  let delete_citations := findallDeepPath tree ["DeleteCitation", "PMID"]
  pure (article_list ++ delete_citations.map stubRecord)

/-! Basic monad and string helper lemmas. -/

@[simp] theorem bindE_ok {α β : Type} (a : α) (f : α → Except String β) :
    (Except.ok a >>= f) = f a := rfl

@[simp] theorem bindE_err {α β : Type} (e : String) (f : α → Except String β) :
    ((Except.error e : Except String α) >>= f) = .error e := rfl

@[simp] theorem pureE {α : Type} (a : α) : (pure a : Except String α) = .ok a := rfl

theorem orEmpty_eq (s : String) : orEmpty s = s := by
  by_cases h : s = "" <;> simp [orEmpty, h]

theorem strOf_data (s : String) : strOf s.data = s := by
  cases s; rfl

theorem data_strOf (l : List Char) : (strOf l).data = l := rfl

theorem data_append (a b : String) : (a ++ b).data = a.data ++ b.data := by
  cases a; cases b; rfl

theorem strAppendEmpty (s : String) : s ++ "" = s := by
  cases s with
  | mk l => show strOf (l ++ []) = strOf l; rw [List.append_nil]

/-! Claim C2: the month-or-day formatter. -/

/-- C2 counterexample: the claim maps "JAN." to "01" and "13" to the absent
value, but the abbreviation test of month_or_day_formater is case-sensitive,
so "JAN." falls through to the digit test and returns None, while "13" is a
purely numeric string and is formatted as "13" rather than dropped. -/
theorem c2_counterexample :
    month_or_day_formater "JAN." = none ∧
    month_or_day_formater "13" = some "13" := by
  exact ⟨by decide, by decide⟩

/-- C2 amended: "Jan", "Jan." and "1" map to "01"; "JAN." maps to the absent
value because the month-abbreviation membership test is case-sensitive; "13"
maps to "13" because any purely numeric string is accepted as a day/month;
"Foo" maps to the absent value. -/
theorem c2_amended_formatter :
    month_or_day_formater "Jan" = some "01" ∧
    month_or_day_formater "Jan." = some "01" ∧
    month_or_day_formater "1" = some "01" ∧
    month_or_day_formater "JAN." = none ∧
    month_or_day_formater "13" = some "13" ∧
    month_or_day_formater "Foo" = none := by
  exact ⟨by decide, by decide, by decide, by decide, by decide, by decide⟩

/-! Claim C1: totality of the scalar field extractors. -/

/-- Citation whose MeshHeadingList has a MeshHeading without DescriptorName. -/
def badMeshCite : Elem :=
  el "MedlineCitation" [] none
    [el "MeshHeadingList" [] none [el "MeshHeading" [] none [] none] none] none

/-- Citation with an OtherID element whose text is absent. -/
def badOtherCite : Elem :=
  el "MedlineCitation" [] none [el "OtherID" [] none [] none] none

/-- Citation with a doi-typed ELocationID whose text is absent. -/
def badDoiCite : Elem :=
  el "MedlineCitation" [] none
    [el "Article" [] none
      [el "ELocationID" [("EIdType", "doi")] none [] none] none] none

/-- Citation with a Chemical whose NameOfSubstance has no text. -/
def badChemCite : Elem :=
  el "MedlineCitation" [] none
    [el "ChemicalList" [] none
      [el "Chemical" [] none [el "NameOfSubstance" [] none [] none] none] none] none

/-- Citation with a PublicationType whose text is absent. -/
def badPubTypeCite : Elem :=
  el "MedlineCitation" [] none
    [el "Article" [] none
      [el "PublicationTypeList" [] none
        [el "PublicationType" [] none [] none] none] none] none

/-- Empty citation: every extractor container path is absent. -/
def emptyCite : Elem := el "MedlineCitation" [] none [] none

/-- Citation whose Article exists but carries no ELocationID. -/
def emptyArticleCite : Elem :=
  el "MedlineCitation" [] none [el "Article" [] none [] none] none

/-- C1 counterexample: a well-formed citation whose MeshHeadingList contains a
MeshHeading with no DescriptorName child makes parse_mesh_terms raise
(`m.find('DescriptorName').attrib` dereferences None), contradicting the
claim that every extractor terminates without raising on such input. -/
theorem c1_counterexample :
    exceptIsOk (parse_mesh_terms badMeshCite) = false := by decide

/-- C1 amended: each extractor returns its empty default when its top-level
container path is absent (for the DOI extractor, provided the Article element
itself exists), and parse_journal_info and parse_pmid also default; but a
MeshHeading lacking a DescriptorName, or an OtherID, doi-typed ELocationID,
NameOfSubstance or PublicationType element whose text is absent, raises
instead of defaulting. -/
theorem c1_amended_defaults :
    (∀ m : Elem, findPath m "MeshHeadingList" = none →
       parse_mesh_terms m = .ok "") ∧
    (∀ m : Elem, findPath m "Article/PublicationTypeList" = none →
       parse_publication_types m = .ok "") ∧
    (∀ m : Elem, findPath m "ChemicalList" = none →
       parse_chemical_list m = .ok "") ∧
    (∀ m : Elem, findallPathS m "OtherID" = [] →
       parse_other_id m = .ok { pmc := "", other_id := "" }) ∧
    (∀ m a : Elem, findPath m "Article" = some a →
       findallPathS a "ELocationID" = [] → parse_doi m = .ok "") ∧
    (∀ m : Elem, findPath m "MedlineJournalInfo" = none →
       parse_journal_info m =
         { medline_ta := "", nlm_unique_id := "", issn_linking := some "",
           country := "" }) ∧
    (∀ m : Elem, findPath m "PMID" = none → parse_pmid m = some "") ∧
    exceptIsOk (parse_mesh_terms badMeshCite) = false ∧
    exceptIsOk (parse_other_id badOtherCite) = false ∧
    exceptIsOk (parse_doi badDoiCite) = false ∧
    exceptIsOk (parse_chemical_list badChemCite) = false ∧
    exceptIsOk (parse_publication_types badPubTypeCite) = false := by
  refine ⟨?_, ?_, ?_, ?_, ?_, ?_, ?_, by decide, by decide, by decide, by decide, by decide⟩
  · intro m h; simp [parse_mesh_terms, h]
  · intro m h; simp [parse_publication_types, h, pyJoin]
  · intro m h; simp [parse_chemical_list, h, pyJoin]
  · intro m h; simp [parse_other_id, h, otherIdLoop, pyJoin]
  · intro m a h1 h2; simp [parse_doi, h1, h2, orRaise, doiLoop]
  · intro m h; simp [parse_journal_info, h]; rfl
  · intro m h; simp [parse_pmid, h]

/-- C1 witness: the amended defaults instantiated on concrete citations whose
container paths are absent. -/
theorem c1_amended_defaults_witness :
    parse_mesh_terms emptyCite = .ok "" ∧
    parse_publication_types emptyCite = .ok "" ∧
    parse_chemical_list emptyCite = .ok "" ∧
    parse_other_id emptyCite = .ok { pmc := "", other_id := "" } ∧
    parse_doi emptyArticleCite = .ok "" ∧
    parse_journal_info emptyCite =
      { medline_ta := "", nlm_unique_id := "", issn_linking := some "",
        country := "" } ∧
    parse_pmid emptyCite = some "" := by
  refine ⟨c1_amended_defaults.1 emptyCite rfl,
          c1_amended_defaults.2.1 emptyCite rfl,
          c1_amended_defaults.2.2.1 emptyCite rfl,
          c1_amended_defaults.2.2.2.1 emptyCite rfl,
          c1_amended_defaults.2.2.2.2.1 emptyArticleCite
            (el "Article" [] none [] none) rfl rfl,
          c1_amended_defaults.2.2.2.2.2.1 emptyCite rfl,
          c1_amended_defaults.2.2.2.2.2.2.1 emptyCite rfl⟩

/-! Claim C3: DOI resolution is last-match-wins with reset. -/

theorem doiLoop_append (l l2 : List Elem) (init : String)
    (h : ∀ x ∈ l, attribGet x "EIdType" "" = "doi" → x.text ≠ none) :
    ∃ mid : String, doiLoop (l ++ l2) init = doiLoop l2 mid := by
  induction l generalizing init with
  | nil => exact ⟨init, rfl⟩
  | cons e l' ih =>
    by_cases he : attribGet e "EIdType" "" = "doi"
    · have ht := h e (List.mem_cons_self e l') he
      cases hx : e.text with
      | none => exact absurd hx ht
      | some t =>
        have hst : doiLoop ((e :: l') ++ l2) init
            = doiLoop (l' ++ l2) (orEmpty (pyStrip t)) := by
          simp [doiLoop, he, hx]
        rw [hst]
        exact ih (orEmpty (pyStrip t)) (fun x hm hd => h x (List.mem_cons_of_mem e hm) hd)
    · have he2 : (attribGet e "EIdType" "" == "doi") = false :=
        beq_eq_false_iff_ne.mpr he
      have hst : doiLoop ((e :: l') ++ l2) init = doiLoop (l' ++ l2) "" := by
        simp [doiLoop, he2]
      rw [hst]
      exact ih "" (fun x hm hd => h x (List.mem_cons_of_mem e hm) hd)

/-- Citation of the claim example: ELocationID doi "10.1/x" then pii "ABC". -/
def c3cite : Elem :=
  el "MedlineCitation" [] none
    [el "Article" [] none
      [el "ELocationID" [("EIdType", "doi")] (some "10.1/x") [] none,
       el "ELocationID" [("EIdType", "pii")] (some "ABC") [] none] none] none

/-- C3: the assembled DOI is the stripped text of the final ELocationID when
that element is doi-typed, and the empty string when the final element is not
doi-typed (so any entry after the last doi-typed one resets the result); in
particular the doi/pii example of the claim yields the empty string. -/
theorem c3_doi_last_match :
    parse_doi c3cite = .ok "" ∧
    (∀ (m a : Elem) (l : List Elem) (e : Elem) (t : String),
      findPath m "Article" = some a →
      findallPathS a "ELocationID" = l ++ [e] →
      (∀ x ∈ l, attribGet x "EIdType" "" = "doi" → x.text ≠ none) →
      attribGet e "EIdType" "" = "doi" → e.text = some t →
      parse_doi m = .ok (pyStrip t)) ∧
    (∀ (m a : Elem) (l : List Elem) (e : Elem),
      findPath m "Article" = some a →
      findallPathS a "ELocationID" = l ++ [e] →
      (∀ x ∈ l, attribGet x "EIdType" "" = "doi" → x.text ≠ none) →
      attribGet e "EIdType" "" ≠ "doi" →
      parse_doi m = .ok "") := by
  refine ⟨rfl, ?_, ?_⟩
  · intro m a l e t h1 h2 hl he ht
    have hp : parse_doi m = doiLoop (l ++ [e]) "" := by
      simp [parse_doi, h1, orRaise, h2]
    rw [hp]
    obtain ⟨mid, hm⟩ := doiLoop_append l [e] "" hl
    rw [hm]
    simp [doiLoop, he, ht, orEmpty_eq]
  · intro m a l e h1 h2 hl he
    have hp : parse_doi m = doiLoop (l ++ [e]) "" := by
      simp [parse_doi, h1, orRaise, h2]
    rw [hp]
    obtain ⟨mid, hm⟩ := doiLoop_append l [e] "" hl
    rw [hm]
    have he2 : (attribGet e "EIdType" "" == "doi") = false :=
      beq_eq_false_iff_ne.mpr he
    simp [doiLoop, he2]

/-- Citation with a pii entry followed by a final doi entry. -/
def c3okCite : Elem :=
  el "MedlineCitation" [] none
    [el "Article" [] none
      [el "ELocationID" [("EIdType", "pii")] (some "ABC") [] none,
       el "ELocationID" [("EIdType", "doi")] (some "10.1/x") [] none] none] none

/-- C3 witness: the last-match rule applied at a concrete citation whose final
ELocationID is doi-typed. -/
theorem c3_doi_last_match_witness : parse_doi c3okCite = .ok (pyStrip "10.1/x") := by
  exact c3_doi_last_match.2.1 c3okCite
    (el "Article" [] none
      [el "ELocationID" [("EIdType", "pii")] (some "ABC") [] none,
       el "ELocationID" [("EIdType", "doi")] (some "10.1/x") [] none] none)
    [el "ELocationID" [("EIdType", "pii")] (some "ABC") [] none]
    (el "ELocationID" [("EIdType", "doi")] (some "10.1/x") [] none) "10.1/x"
    rfl rfl
    (by intro x hx hd
        rw [List.mem_singleton] at hx
        subst hx
        exact absurd hd (by decide))
    rfl rfl

/-! Claim C6: Date Resolver serialization. -/

def pdYMD : Elem :=
  el "PubDate" [] none
    [el "Year" [] (some "1999") [] none,
     el "Month" [] (some "03") [] none,
     el "Day" [] (some "15") [] none] none

def pdYM : Elem :=
  el "PubDate" [] none
    [el "Year" [] (some "1999") [] none,
     el "Month" [] (some "03") [] none] none

def pdY : Elem :=
  el "PubDate" [] none [el "Year" [] (some "1999") [] none] none

def journalOfPd (pd : Elem) : Elem :=
  el "Journal" [] none [el "JournalIssue" [] none [pd] none] none

/-- C6: year 1999, month 03, day 15 with year_info_only false serializes to
1999-03-15; the same without the Day element serializes to 1999-03; with
year_info_only true the result is 1999 regardless of month and day; and in
general, whenever year_info_only is set, or the month resolution comes out
absent and the resolver returns at all, the result is exactly the resolved
year (possibly empty or absent). -/
theorem c6_date_serialization :
    date_extractor (journalOfPd pdYMD) false = .ok (some "1999-03-15") ∧
    date_extractor (journalOfPd pdYM) false = .ok (some "1999-03") ∧
    date_extractor (journalOfPd pdYMD) true = .ok (some "1999") ∧
    date_extractor (journalOfPd pdYM) true = .ok (some "1999") ∧
    (∀ (journal issue issue_date : Elem),
      (findallPathS journal "JournalIssue").head? = some issue →
      findPath issue "PubDate" = some issue_date →
      date_extractor journal true = yearOfE issue_date) ∧
    (∀ (journal issue issue_date : Elem) (v : Option String),
      (findallPathS journal "JournalIssue").head? = some issue →
      findPath issue "PubDate" = some issue_date →
      monthOfE issue_date = .ok none →
      date_extractor journal false = .ok v →
      yearOfE issue_date = .ok v) := by
  refine ⟨rfl, rfl, rfl, rfl, ?_, ?_⟩
  · intro j i d hi hd
    unfold date_extractor
    rw [hi]
    simp only [orRaise, bindE_ok]
    rw [hd]
    simp only [orRaise, bindE_ok]
    cases hy : yearOfE d <;> simp [hy]
  · intro j i d v hi hd hm h
    unfold date_extractor at h
    rw [hi] at h
    simp only [orRaise, bindE_ok] at h
    rw [hd] at h
    simp only [orRaise, bindE_ok] at h
    cases hy : yearOfE d with
    | error e => rw [hy] at h; simp at h
    | ok y =>
      rw [hy] at h
      simp only [bindE_ok, Bool.false_eq_true, if_false, hm] at h
      cases hdy : dayOfE d with
      | error e => rw [hdy] at h; simp at h
      | ok dv =>
        rw [hdy] at h
        simp only [bindE_ok, pureE, Bool.false_or, Option.isNone_none, if_true] at h
        cases h
        rfl

/-- C6 witness: the year-only clauses of the serialization theorem applied at
concrete journals. -/
theorem c6_date_serialization_witness :
    date_extractor (journalOfPd pdYMD) true = yearOfE pdYMD ∧
    yearOfE pdY = .ok (some "1999") := by
  constructor
  · exact c6_date_serialization.2.2.2.2.1 (journalOfPd pdYMD)
      (el "JournalIssue" [] none [pdYMD] none) pdYMD rfl rfl
  · exact c6_date_serialization.2.2.2.2.2 (journalOfPd pdY)
      (el "JournalIssue" [] none [pdY] none) pdY (some "1999") rfl rfl rfl rfl

/-! Shape of every successfully assembled non-deleted record. -/

theorem mapE_ok_mem {α β : Type} {f : α → Except String β} :
    ∀ {xs : List α} {ys : List β}, mapE f xs = .ok ys → ∀ y ∈ ys, ∃ x, f x = .ok y := by
  intro xs
  induction xs with
  | nil =>
    intro ys h y hy
    cases h
    simp at hy
  | cons x xs ih =>
    intro ys h y hy
    unfold mapE at h
    cases hfx : f x with
    | error e => rw [hfx] at h; simp at h
    | ok b =>
      rw [hfx] at h
      simp only [bindE_ok] at h
      cases hrest : mapE f xs with
      | error e => rw [hrest] at h; simp at h
      | ok bs =>
        rw [hrest] at h
        simp only [bindE_ok] at h
        cases h
        rcases List.mem_cons.mp hy with hy1 | hy2
        · exact ⟨x, by rw [hfx, hy1]⟩
        · exact ih hrest y hy2

theorem parse_article_info_shape {m : Elem} {yio nc : Bool}
    {sb sp : Option (String × String)} {inc : Bool} {r : MedlineRecord}
    (h : parse_article_info m yio nc sb sp inc = .ok r) :
    r.delete = false ∧ r.title.isString = true ∧ r.abstract.isString = true ∧
    r.journal.isString = true ∧ r.author.isString = true ∧
    r.affiliation.isString = true ∧ r.doi.isString = true ∧
    r.mesh_terms.isString = true ∧ r.publication_types.isString = true ∧
    r.chemical_list.isString = true ∧ r.keywords.isString = true ∧
    r.pmc.isString = true ∧ r.other_id.isString = true ∧
    r.medline_ta.isString = true ∧ r.nlm_unique_id.isString = true ∧
    r.country.isString = true ∧ r.pmid = .ofOpt (parse_pmid m) ∧
    r.pubdate ≠ .nan ∧
    r.issn_linking = .ofOpt (parse_journal_info m).issn_linking := by
  unfold parse_article_info at h
  cases hA : findPath m "Article" with
  | none => rw [hA] at h; simp [orRaise] at h
  | some article =>
    rw [hA] at h
    simp only [orRaise, bindE_ok] at h
    cases hJ : findPath article "Journal" with
    | none => rw [hJ] at h; simp [orRaise] at h
    | some journal =>
      rw [hJ] at h
      simp only [orRaise, bindE_ok] at h
      cases hpd : date_extractor journal yio with
      | error e => rw [hpd] at h; simp at h
      | ok pd =>
        rw [hpd] at h
        simp only [bindE_ok] at h
        cases hdoi : parse_doi m with
        | error e => rw [hdoi] at h; simp at h
        | ok doi =>
          rw [hdoi] at h
          simp only [bindE_ok] at h
          cases hmesh : parse_mesh_terms m with
          | error e => rw [hmesh] at h; simp at h
          | ok mesh =>
            rw [hmesh] at h
            simp only [bindE_ok] at h
            cases hpt : parse_publication_types m with
            | error e => rw [hpt] at h; simp at h
            | ok pts =>
              rw [hpt] at h
              simp only [bindE_ok] at h
              cases hch : parse_chemical_list m with
              | error e => rw [hch] at h; simp at h
              | ok chem =>
                rw [hch] at h
                simp only [bindE_ok] at h
                cases hoid : parse_other_id m with
                | error e => rw [hoid] at h; simp at h
                | ok oid =>
                  rw [hoid] at h
                  simp only [bindE_ok, pureE] at h
                  simp only [Except.ok.injEq] at h
                  subst h
                  refine ⟨rfl, rfl, rfl, rfl, rfl, rfl, rfl, rfl, rfl, rfl,
                          rfl, rfl, rfl, rfl, rfl, rfl, rfl, ?_, rfl⟩
                  cases pd <;> simp [FieldVal.ofOpt]

/-! Claim C7: deleted-citation stubs. -/

/-- Every field of a stub other than pmid and delete is the nan marker. -/
def stubOthersNan (r : MedlineRecord) : Bool :=
  r.title == .nan && r.abstract == .nan && r.journal == .nan &&
  r.author == .nan && r.affiliation == .nan && r.pubdate == .nan &&
  r.mesh_terms == .nan && r.publication_types == .nan &&
  r.chemical_list == .nan && r.keywords == .nan && r.doi == .nan &&
  r.pmc == .nan && r.other_id == .nan && r.medline_ta == .nan &&
  r.nlm_unique_id == .nan && r.issn_linking == .nan && r.country == .nan

/-- C7: a successful batch run yields the live records followed by exactly one
stub per DeleteCitation/PMID notice; live records have delete false; each stub
carries the notice text as pmid, delete true, and the nan marker everywhere
else. -/
theorem c7_delete_stub :
    ∀ (tree : Elem) (yio nc : Bool) (sb sp : Option (String × String))
      (l : List MedlineRecord),
      parse_medline_xml tree yio nc sb sp = .ok l →
      ∃ lives : List MedlineRecord,
        l = lives ++ (findallDeepPath tree ["DeleteCitation", "PMID"]).map stubRecord ∧
        (∀ r ∈ lives, r.delete = false) ∧
        (∀ p ∈ findallDeepPath tree ["DeleteCitation", "PMID"],
          (stubRecord p).pmid = .ofOpt p.text ∧ (stubRecord p).delete = true ∧
          stubOthersNan (stubRecord p) = true) := by
  intro tree yio nc sb sp l h
  unfold parse_medline_xml at h
  cases hm : mapE (fun m => parse_article_info m yio nc sb sp false) (citationsOf tree) with
  | error e => rw [hm] at h; simp at h
  | ok lives =>
    rw [hm] at h
    simp only [bindE_ok, pureE, Except.ok.injEq] at h
    subst h
    refine ⟨lives, rfl, ?_, ?_⟩
    · intro r hr
      obtain ⟨x, hx⟩ := mapE_ok_mem hm r hr
      exact (parse_article_info_shape hx).1
    · intro p hp
      exact ⟨rfl, rfl, rfl⟩

def c7tree : Elem :=
  el "Root" [] none
    [el "DeleteCitation" [] none [el "PMID" [] (some "12345") [] none] none] none

/-- C7 witness: the stub facts instantiated on a document with one deletion
notice whose identifier text is 12345. -/
theorem c7_delete_stub_witness :
    (stubRecord (el "PMID" [] (some "12345") [] none)).pmid = .str "12345" ∧
    (stubRecord (el "PMID" [] (some "12345") [] none)).delete = true ∧
    stubOthersNan (stubRecord (el "PMID" [] (some "12345") [] none)) = true := by
  obtain ⟨lives, hl, hlive, hstub⟩ :=
    c7_delete_stub c7tree true false none none
      [stubRecord (el "PMID" [] (some "12345") [] none)] rfl
  have hmem : el "PMID" [] (some "12345") [] none ∈
      findallDeepPath c7tree ["DeleteCitation", "PMID"] := by
    rw [show findallDeepPath c7tree ["DeleteCitation", "PMID"]
        = [el "PMID" [] (some "12345") [] none] from rfl]
    exact List.mem_singleton.mpr rfl
  have hfacts := hstub (el "PMID" [] (some "12345") [] none) hmem
  exact ⟨hfacts.1, hfacts.2.1, hfacts.2.2⟩

/-! Claim C5: field types of the assembled non-deleted record. -/

/-- Citation whose MedlineJournalInfo has an ISSNLinking element without text. -/
def c5cite : Elem :=
  el "MedlineCitation" [] none
    [el "PMID" [] (some "77") [] none,
     el "Article" [] none
       [el "ArticleTitle" [] (some "T") [] none,
        el "Journal" [] none
          [el "Title" [] (some "J") [] none,
           el "JournalIssue" [] none
             [el "PubDate" [] none
               [el "Year" [] (some "2001") [] none] none] none] none] none,
     el "MedlineJournalInfo" [] none
       [el "ISSNLinking" [] none [] none] none] none

/-- C5 counterexample: a well-formed citation whose ISSNLinking element is
present but empty assembles successfully, yet its issn_linking field is the
Python None value, not a string — `parse_journal_info` reads
`journal_info.find('ISSNLinking').text` with no `or ''` default. -/
theorem c5_counterexample :
    (parse_article_info c5cite true false none none false).map
      (fun r => r.issn_linking.isString) = .ok false := rfl

/-- C5 amended: every field of a successfully assembled non-deleted record is
a string, except that pmid, pubdate and issn_linking may be the Python None
value when the corresponding element is present without text; in particular
issn_linking is None whenever the ISSNLinking element exists but has no text.
No field of a live record is ever the nan marker. -/
theorem c5_amended_record_fields :
    ∀ (m : Elem) (yio nc : Bool) (sb sp : Option (String × String))
      (r : MedlineRecord),
      parse_article_info m yio nc sb sp false = .ok r →
      (r.delete = false ∧
       r.title.isString = true ∧ r.abstract.isString = true ∧
       r.journal.isString = true ∧ r.author.isString = true ∧
       r.affiliation.isString = true ∧ r.doi.isString = true ∧
       r.mesh_terms.isString = true ∧ r.publication_types.isString = true ∧
       r.chemical_list.isString = true ∧ r.keywords.isString = true ∧
       r.pmc.isString = true ∧ r.other_id.isString = true ∧
       r.medline_ta.isString = true ∧ r.nlm_unique_id.isString = true ∧
       r.country.isString = true ∧
       r.pmid ≠ .nan ∧ r.pubdate ≠ .nan ∧ r.issn_linking ≠ .nan ∧
       (∀ ji e : Elem, findPath m "MedlineJournalInfo" = some ji →
          findPath ji "ISSNLinking" = some e → e.text = none →
          r.issn_linking = .pynone)) := by
  intro m yio nc sb sp r h
  obtain ⟨hdel, ht, hab, hj, hau, haf, hdoi, hme, hpt, hch, hkw, hpmc, hoi,
          hmt, hnu, hco, hpmid, hpd, hissn⟩ := parse_article_info_shape h
  refine ⟨hdel, ht, hab, hj, hau, haf, hdoi, hme, hpt, hch, hkw, hpmc, hoi,
          hmt, hnu, hco, ?_, hpd, ?_, ?_⟩
  · rw [hpmid]; cases parse_pmid m <;> simp [FieldVal.ofOpt]
  · rw [hissn]; cases (parse_journal_info m).issn_linking <;> simp [FieldVal.ofOpt]
  · intro ji e hji he htext
    rw [hissn]
    simp [parse_journal_info, hji, he, htext, FieldVal.ofOpt]

/-- Record assembled from c5cite. -/
def c5record : MedlineRecord :=
  { title := .str "T", abstract := .str "", journal := .str "J"
  , author := .str "", affiliation := .str "", pubdate := .str "2001"
  , pmid := .str "77", mesh_terms := .str "", publication_types := .str ""
  , chemical_list := .str "", keywords := .str "", doi := .str ""
  , pmc := .str "", other_id := .str "", medline_ta := .str ""
  , nlm_unique_id := .str "", issn_linking := .pynone, country := .str ""
  , delete := false }

/-- C5 witness: the amended field typing applied at the concrete citation
whose ISSNLinking element is empty. -/
theorem c5_amended_record_fields_witness :
    c5record.delete = false ∧ c5record.title.isString = true ∧
    c5record.issn_linking = .pynone := by
  obtain ⟨h1, h2, _, _, _, _, _, _, _, _, _, _, _, _, _, _, _, _, _, hlast⟩ :=
    c5_amended_record_fields c5cite true false none none c5record rfl
  exact ⟨h1, h2, hlast (el "MedlineJournalInfo" [] none
    [el "ISSNLinking" [] none [] none] none)
    (el "ISSNLinking" [] none [] none) rfl rfl rfl⟩

/-! Substring lemmas: a pattern avoiding a separator character cannot span it. -/

theorem startsWithL_sep {p : List Char} (c : Char) (hc : c ∉ p) :
    ∀ {a b : List Char}, startsWithL p (a ++ c :: b) = true →
      startsWithL p a = true := by
  induction p with
  | nil => intro a b _; rfl
  | cons q qs ih =>
    intro a b h
    cases a with
    | nil =>
      simp only [List.nil_append, startsWithL, Bool.and_eq_true, beq_iff_eq] at h
      exact absurd (h.1 ▸ List.mem_cons_self q qs) hc
    | cons x xs =>
      simp only [List.cons_append, startsWithL, Bool.and_eq_true] at h ⊢
      exact ⟨h.1, ih (fun hm => hc (List.mem_cons_of_mem q hm)) h.2⟩

theorem containsSubL_sep {p : List Char} (hp : p ≠ []) (c : Char) (hc : c ∉ p) :
    ∀ {a b : List Char}, containsSubL p a = false → containsSubL p b = false →
      containsSubL p (a ++ c :: b) = false := by
  intro a
  induction a with
  | nil =>
    intro b ha hb
    have hsw : startsWithL p (c :: b) = false := by
      cases hst : startsWithL p (c :: b)
      · rfl
      · have h0 : startsWithL p ([] ++ c :: b) = true := by simpa using hst
        have := startsWithL_sep c hc h0
        cases p with
        | nil => exact absurd rfl hp
        | cons q qs => simp [startsWithL] at this
    show containsSubL p (c :: b) = false
    simp [containsSubL, hsw, hb]
  | cons x a' ih =>
    intro b ha hb
    have hparts : startsWithL p (x :: a') = false ∧ containsSubL p a' = false := by
      simpa [containsSubL, Bool.or_eq_false_iff] using ha
    have hsw : startsWithL p ((x :: a') ++ c :: b) = false := by
      cases hst : startsWithL p ((x :: a') ++ c :: b)
      · rfl
      · rw [startsWithL_sep c hc hst] at hparts
        exact absurd hparts.1 (by simp)
    show containsSubL p (x :: (a' ++ c :: b)) = false
    have htail := ih hparts.2 hb
    simp only [containsSubL, Bool.or_eq_false_iff]
    exact ⟨by simpa using hsw, htail⟩

theorem startsWithL_refl_append (p r : List Char) : startsWithL p (p ++ r) = true := by
  induction p with
  | nil => rfl
  | cons q qs ih => simp [startsWithL, ih]

theorem containsSubL_of_startsWithL {p s : List Char}
    (h : startsWithL p s = true) : containsSubL p s = true := by
  cases s with
  | nil =>
    cases p with
    | nil => rfl
    | cons q qs => simp [startsWithL] at h
  | cons x rest => simp [containsSubL, h]

theorem containsSubL_append_left (a : List Char) {p b : List Char}
    (h : containsSubL p b = true) : containsSubL p (a ++ b) = true := by
  induction a with
  | nil => simpa using h
  | cons x a' ih =>
    show containsSubL p (x :: (a' ++ b)) = true
    simp [containsSubL, ih]

theorem pyIn_pyJoin_semicolon (p : String) (hp : p.data ≠ [])
    (h1 : (';' : Char) ∉ p.data) (h2 : (' ' : Char) ∉ p.data) :
    ∀ xs : List String, (∀ s ∈ xs, pyIn p s = false) →
      pyIn p (pyJoin "; " xs) = false := by
  intro xs
  induction xs with
  | nil =>
    intro _
    show containsSubL p.data [] = false
    cases hd : p.data with
    | nil => exact absurd hd hp
    | cons q qs => simp [containsSubL]
  | cons x xs ih =>
    intro hall
    cases xs with
    | nil => simpa [pyIn, pyJoin] using hall x (by simp)
    | cons y ys =>
      have hx : containsSubL p.data x.data = false := hall x (by simp)
      have hr : containsSubL p.data (pyJoin "; " (y :: ys)).data = false :=
        ih (fun s hs => hall s (List.mem_cons_of_mem x hs))
      have hempty : containsSubL p.data [] = false := by
        cases hd : p.data with
        | nil => exact absurd hd hp
        | cons q qs => simp [containsSubL]
      have hinner : containsSubL p.data (' ' :: (pyJoin "; " (y :: ys)).data) = false := by
        have := @containsSubL_sep p.data hp ' ' h2 [] (pyJoin "; " (y :: ys)).data
          hempty hr
        simpa using this
      have houter : containsSubL p.data
          (x.data ++ ';' :: ' ' :: (pyJoin "; " (y :: ys)).data) = false :=
        containsSubL_sep hp ';' h1 hx hinner
      show containsSubL p.data (x ++ "; " ++ pyJoin "; " (y :: ys)).data = false
      have hd : (x ++ "; " ++ pyJoin "; " (y :: ys)).data
          = x.data ++ ';' :: ' ' :: (pyJoin "; " (y :: ys)).data := by
        rw [data_append, data_append]
        simp
      rw [hd]
      exact houter

/-! Claim C10: last PMC wins in parse_other_id. -/

theorem foldl_keep_last {α : Type} (d : α) (l : List α) :
    l.foldl (fun _ t => t) d = l.getLastD d := by
  induction l generalizing d with
  | nil => rfl
  | cons x xs ih => rw [List.foldl_cons, ih x, List.getLastD_cons]

theorem otherIdLoop_spec :
    ∀ (os : List Elem) (pmc0 : String) (acc : List String),
      (∀ o ∈ os, o.text ≠ none) →
      otherIdLoop os pmc0 acc =
        .ok (((os.filterMap Elem.text).filter (fun t => pyIn "PMC" t)).foldl
               (fun _ t => t) pmc0,
             acc ++ (os.filterMap Elem.text).filter (fun t => !pyIn "PMC" t)) := by
  intro os
  induction os with
  | nil => intro pmc0 acc _; simp [otherIdLoop]
  | cons o os ih =>
    intro pmc0 acc h
    cases hx : o.text with
    | none => exact absurd hx (h o (List.mem_cons_self o os))
    | some t =>
      have hrest : ∀ x ∈ os, x.text ≠ none :=
        fun x hm => h x (List.mem_cons_of_mem o hm)
      by_cases hpmc : pyIn "PMC" t = true
      · have hstep : otherIdLoop (o :: os) pmc0 acc = otherIdLoop os t acc := by
          simp [otherIdLoop, hx, hpmc]
        rw [hstep, ih t acc hrest]
        simp [List.filterMap_cons, hx, List.filter_cons, hpmc]
      · have hpmc2 : pyIn "PMC" t = false := by
          cases hv : pyIn "PMC" t
          · rfl
          · exact absurd hv hpmc
        have hstep : otherIdLoop (o :: os) pmc0 acc
            = otherIdLoop os pmc0 (acc ++ [t]) := by
          simp [otherIdLoop, hx, hpmc2]
        rw [hstep, ih pmc0 (acc ++ [t]) hrest]
        simp [List.filterMap_cons, hx, List.filter_cons, hpmc2]

/-- C10: with all OtherID texts present and at least two of them containing
"PMC", the extractor returns pmc equal to the last PMC-containing text in
document order, and the semicolon-joined other_id consists exactly of the
non-PMC texts — the substring "PMC" never occurs in it, so no PMC-containing
text appears there. -/
theorem c10_other_id_pmc :
    ∀ (m : Elem),
      (∀ o ∈ findallPathS m "OtherID", o.text ≠ none) →
      2 ≤ (((findallPathS m "OtherID").filterMap Elem.text).filter
            (fun t => pyIn "PMC" t)).length →
      parse_other_id m = .ok
        { pmc := (((findallPathS m "OtherID").filterMap Elem.text).filter
                    (fun t => pyIn "PMC" t)).getLastD ""
        , other_id := pyJoin "; " (((findallPathS m "OtherID").filterMap Elem.text).filter
                    (fun t => !pyIn "PMC" t)) } ∧
      pyIn "PMC" (pyJoin "; " (((findallPathS m "OtherID").filterMap Elem.text).filter
                    (fun t => !pyIn "PMC" t))) = false := by
  intro m htext _htwo
  constructor
  · unfold parse_other_id
    rw [otherIdLoop_spec (findallPathS m "OtherID") "" [] htext]
    simp [foldl_keep_last]
  · apply pyIn_pyJoin_semicolon "PMC" (by decide) (by decide) (by decide)
    intro s hs
    have := List.mem_filter.mp hs
    simpa using this.2

def c10cite : Elem :=
  el "MedlineCitation" [] none
    [el "OtherID" [] (some "PMC1") [] none,
     el "OtherID" [] (some "X") [] none,
     el "OtherID" [] (some "PMC2") [] none] none

/-- C10 witness: two PMC-containing OtherID texts and one other; the last PMC
text wins and the joined other_id is the non-PMC text alone. -/
theorem c10_other_id_pmc_witness :
    parse_other_id c10cite = .ok { pmc := "PMC2", other_id := "X" } := by
  exact (c10_other_id_pmc c10cite (by decide) (by decide)).1

/-! Claims C4 and C8: structured-abstract section labels. -/

/-- AbstractText section carrying the same label in both the Label and the
NlmCategory attribute. -/
def absSection (lab t : String) : Elem :=
  el "AbstractText" [("Label", lab), ("NlmCategory", lab)] (some t) [] none

/-- Citation with three labeled sections INTRODUCTION / UNASSIGNED / RESULTS
holding the given texts. -/
def c8cite (t1 t2 t3 : String) : Elem :=
  el "MedlineCitation" [] none
    [el "PMID" [] (some "1") [] none,
     el "Article" [] none
       [el "ArticleTitle" [] (some "T") [] none,
        el "Abstract" [] none
          [absSection "INTRODUCTION" t1,
           absSection "UNASSIGNED" t2,
           absSection "RESULTS" t3] none,
        el "Journal" [] none
          [el "Title" [] (some "J") [] none,
           el "JournalIssue" [] none
             [el "PubDate" [] none
               [el "Year" [] (some "2000") [] none] none] none] none] none] none

def c4tree : Elem := el "MedlineCitationSet" [] none [c8cite "A" "B" "C"] none

/-- Record produced for c8cite "A" "B" "C" by the batch entry point: the
abstract carries no section label. -/
def c4record : MedlineRecord :=
  { title := .str "T", abstract := .str "A B C", journal := .str "J"
  , author := .str "", affiliation := .str "", pubdate := .str "2000"
  , pmid := .str "1", mesh_terms := .str "", publication_types := .str ""
  , chemical_list := .str "", keywords := .str "", doi := .str ""
  , pmc := .str "", other_id := .str "", medline_ta := .str ""
  , nlm_unique_id := .str "", issn_linking := .str "", country := .str ""
  , delete := false }

set_option maxHeartbeats 3200000 in
/-- C4 counterexample: for every configuration the extraction entry point
accepts — year_info_only, nlm_category and the two marker pairs — a document
whose citation has sections labeled INTRODUCTION / UNASSIGNED / RESULTS
produces the unlabeled abstract "A B C"; no recognized configuration makes
the entry point emit section labels, refuting the existence of an
include_sections parameter on it. -/
theorem c4_counterexample :
    (∀ (yio nc : Bool) (sb sp : Option (String × String)),
      parse_medline_xml c4tree yio nc sb sp = .ok [c4record]) ∧
    pyIn "INTRODUCTION" "A B C" = false := by
  constructor
  · intro yio nc sb sp
    cases yio <;> cases nc <;> cases sb <;> cases sp <;> rfl
  · decide

set_option maxHeartbeats 3200000 in
/-- C4 amended: the entry point recognizes year_info_only, nlm_category and
the subscript/superscript marker pairs but no include_sections parameter: it
always invokes the record assembler with incl_sections false, so labels never
reach its output; the incl_sections switch exists only on parse_article_info,
where setting it true does emit the INTRODUCTION and RESULTS labels. -/
theorem c4_amended_entry_config :
    (∀ (yio nc : Bool) (sb sp : Option (String × String)),
      (parse_medline_xml c4tree yio nc sb sp).map (List.map (fun r => r.abstract))
        = .ok [.str "A B C"]) ∧
    (parse_article_info (c8cite "A" "B" "C") true false none none true).map
      (fun r => r.abstract) = .ok (.str "INTRODUCTION A B RESULTS C") := by
  constructor
  · intro yio nc sb sp
    cases yio <;> cases nc <;> cases sb <;> cases sp <;> rfl
  · rfl

/-! Claim C9: idempotence of the whitespace normalization. -/

/-- The character substitution of replace_multiple on inp_list. -/
def uniFn (c : Char) : Char := if c ∈ inp_list.1 then inp_list.2 else c

/-- The normalization pipeline on character lists. -/
def normL (l : List Char) : List Char :=
  stripL (collapseL ((l.map uniFn).filter (fun c => c ≠ '\n')))

theorem normalizeWhitespace_eq (s : String) :
    normalizeWhitespace s = strOf (normL s.data) := rfl

theorem uniFn_idem (c : Char) : uniFn (uniFn c) = uniFn c := by
  by_cases h : c ∈ inp_list.1
  · simp [uniFn, h, show (' ' : Char) ∈ inp_list.1 from by decide]
  · simp [uniFn, h]

theorem map_id_of_fixed (f : Char → Char) :
    ∀ l : List Char, (∀ c ∈ l, f c = c) → l.map f = l := by
  intro l
  induction l with
  | nil => intro _; rfl
  | cons x xs ih =>
    intro h
    simp only [List.map_cons]
    rw [h x (List.mem_cons_self x xs), ih (fun c hc => h c (List.mem_cons_of_mem x hc))]

theorem mem_of_collapse : ∀ {l : List Char} {c : Char}, c ∈ collapseL l → c ∈ l := by
  intro l
  induction l with
  | nil => intro c h; exact absurd h (by simp [collapseL])
  | cons x l' ih =>
    intro c h
    cases l' with
    | nil => simpa [collapseL] using h
    | cons y rest =>
      by_cases hsp : (x == ' ' && y == ' ') = true
      · rw [show collapseL (x :: y :: rest) = collapseL (y :: rest) from by
          simp [collapseL, hsp]] at h
        exact List.mem_cons_of_mem x (ih h)
      · rw [show collapseL (x :: y :: rest) = x :: collapseL (y :: rest) from by
          simp [collapseL]; intro h1 h2; exact absurd (by simp [h1, h2]) hsp] at h
        rcases List.mem_cons.mp h with h1 | h2
        · exact h1 ▸ List.mem_cons_self x (y :: rest)
        · exact List.mem_cons_of_mem x (ih h2)

theorem mem_of_stripEnd : ∀ {l : List Char} {c : Char}, c ∈ stripEndL l → c ∈ l := by
  intro l
  induction l with
  | nil => intro c h; exact absurd h (by simp [stripEndL])
  | cons x rest ih =>
    intro c h
    by_cases hc : ((stripEndL rest).isEmpty && pyWsB x) = true
    · rw [show stripEndL (x :: rest) = [] from by
        simp only [stripEndL]; rw [if_pos hc]] at h
      exact absurd h (by simp)
    · rw [show stripEndL (x :: rest) = x :: stripEndL rest from by
        simp only [stripEndL]; rw [if_neg hc]] at h
      rcases List.mem_cons.mp h with h1 | h2
      · exact h1 ▸ List.mem_cons_self x rest
      · exact List.mem_cons_of_mem x (ih h2)

theorem mem_of_dropWhile {p : Char → Bool} :
    ∀ {l : List Char} {c : Char}, c ∈ l.dropWhile p → c ∈ l := by
  intro l
  induction l with
  | nil => intro c h; simp at h
  | cons x rest ih =>
    intro c h
    by_cases hp : p x = true
    · rw [List.dropWhile_cons_of_pos hp] at h
      exact List.mem_cons_of_mem x (ih h)
    · rw [List.dropWhile_cons_of_neg (by simpa using hp)] at h
      exact h

theorem mem_of_stripL {l : List Char} {c : Char} (h : c ∈ stripL l) : c ∈ l :=
  mem_of_dropWhile (mem_of_stripEnd h)

/-! noTwoB: absence of adjacent double spaces, and collapse facts. -/

def noTwoB : List Char → Bool
  | [] => true
  | [_] => true
  | c :: d :: rest => !(c == ' ' && d == ' ') && noTwoB (d :: rest)

theorem bool_and_split {a b : Bool} (h : (a && b) = true) : a = true ∧ b = true := by
  cases a <;> cases b <;> simp_all

theorem bool_not_eq_true {a : Bool} (h : ¬a = true) : a = false := by
  cases a
  · rfl
  · exact absurd rfl h

theorem noTwo_tail {x : Char} {l : List Char} (h : noTwoB (x :: l) = true) :
    noTwoB l = true := by
  cases l with
  | nil => rfl
  | cons d rest =>
    have h2 : (!(x == ' ' && d == ' ') && noTwoB (d :: rest)) = true := h
    exact (bool_and_split h2).2

theorem noTwo_dropWhile {p : Char → Bool} :
    ∀ {l : List Char}, noTwoB l = true → noTwoB (l.dropWhile p) = true := by
  intro l
  induction l with
  | nil => intro h; exact h
  | cons x rest ih =>
    intro h
    by_cases hp : p x = true
    · rw [List.dropWhile_cons_of_pos hp]
      exact ih (noTwo_tail h)
    · rw [List.dropWhile_cons_of_neg (by simpa using hp)]
      exact h

theorem collapse_head : ∀ (rest : List Char) (d : Char),
    (collapseL (d :: rest)).head? = some d := by
  intro rest
  induction rest with
  | nil => intro d; rfl
  | cons e rest' ih =>
    intro d
    by_cases hsp : (d == ' ' && e == ' ') = true
    · rw [show collapseL (d :: e :: rest') = collapseL (e :: rest') from by
        simp only [collapseL]; rw [if_pos hsp]]
      have hde := bool_and_split hsp
      have hd : d = ' ' := beq_iff_eq.mp hde.1
      have he : e = ' ' := beq_iff_eq.mp hde.2
      rw [ih e, he, hd]
    · rw [show collapseL (d :: e :: rest') = d :: collapseL (e :: rest') from by
        simp only [collapseL]; rw [if_neg hsp]]
      rfl

theorem noTwo_collapse : ∀ l : List Char, noTwoB (collapseL l) = true := by
  intro l
  induction l with
  | nil => rfl
  | cons x l' ih =>
    cases l' with
    | nil => rfl
    | cons y rest =>
      by_cases hsp : (x == ' ' && y == ' ') = true
      · rw [show collapseL (x :: y :: rest) = collapseL (y :: rest) from by
          simp only [collapseL]; rw [if_pos hsp]]
        exact ih
      · rw [show collapseL (x :: y :: rest) = x :: collapseL (y :: rest) from by
          simp only [collapseL]; rw [if_neg hsp]]
        obtain ⟨tl, htl⟩ : ∃ tl, collapseL (y :: rest) = y :: tl := by
          have hh := collapse_head rest y
          cases hcv : collapseL (y :: rest) with
          | nil => rw [hcv] at hh; simp at hh
          | cons z tl =>
            rw [hcv] at hh
            simp only [List.head?_cons, Option.some.injEq] at hh
            exact ⟨tl, by rw [hh]⟩
        rw [htl]
        have hnt : noTwoB (y :: tl) = true := htl ▸ ih
        show (!(x == ' ' && y == ' ') && noTwoB (y :: tl)) = true
        rw [bool_not_eq_true hsp, hnt]
        rfl

theorem collapse_of_noTwo : ∀ l : List Char, noTwoB l = true → collapseL l = l := by
  intro l
  induction l with
  | nil => intro _; rfl
  | cons x l' ih =>
    intro h
    cases l' with
    | nil => rfl
    | cons y rest =>
      have h2 : (!(x == ' ' && y == ' ') && noTwoB (y :: rest)) = true := h
      have hparts := bool_and_split h2
      have hsp : (x == ' ' && y == ' ') = false := by
        cases hv : (x == ' ' && y == ' ')
        · rfl
        · rw [hv] at hparts; exact absurd hparts.1 (by simp)
      rw [show collapseL (x :: y :: rest) = x :: collapseL (y :: rest) from by
        simp only [collapseL]; rw [if_neg (by simp [hsp])]]
      rw [ih hparts.2]

theorem stripEnd_decomp : ∀ l : List Char, ∃ m, l = stripEndL l ++ m := by
  intro l
  induction l with
  | nil => exact ⟨[], rfl⟩
  | cons x rest ih =>
    obtain ⟨m, hm⟩ := ih
    by_cases hc : ((stripEndL rest).isEmpty && pyWsB x) = true
    · refine ⟨x :: rest, ?_⟩
      rw [show stripEndL (x :: rest) = [] from by
        simp only [stripEndL]; rw [if_pos hc]]
      rfl
    · refine ⟨m, ?_⟩
      rw [show stripEndL (x :: rest) = x :: stripEndL rest from by
        simp only [stripEndL]; rw [if_neg hc]]
      rw [List.cons_append, ← hm]

theorem noTwo_append_left : ∀ x y : List Char, noTwoB (x ++ y) = true → noTwoB x = true := by
  intro x
  induction x with
  | nil => intro y _; rfl
  | cons c x' ih =>
    intro y h
    cases x' with
    | nil => rfl
    | cons d x'' =>
      have h2 : (!(c == ' ' && d == ' ') && noTwoB (d :: (x'' ++ y))) = true := h
      have hparts := bool_and_split h2
      have htail : noTwoB (d :: x'') = true := ih y hparts.2
      show (!(c == ' ' && d == ' ') && noTwoB (d :: x'')) = true
      rw [hparts.1, htail]
      rfl

theorem noTwo_stripEnd {l : List Char} (h : noTwoB l = true) :
    noTwoB (stripEndL l) = true := by
  obtain ⟨m, hm⟩ := stripEnd_decomp l
  exact noTwo_append_left (stripEndL l) m (hm ▸ h)

/-! Strip idempotence. -/

theorem dropWhile_head_false {p : Char → Bool} :
    ∀ {l : List Char} {c : Char} {rest : List Char},
      l.dropWhile p = c :: rest → p c = false := by
  intro l
  induction l with
  | nil => intro c rest h; simp at h
  | cons x l' ih =>
    intro c rest h
    by_cases hp : p x = true
    · rw [List.dropWhile_cons_of_pos hp] at h
      exact ih h
    · rw [List.dropWhile_cons_of_neg (by simpa using hp)] at h
      cases h
      exact bool_not_eq_true hp

theorem stripEnd_last_false :
    ∀ {l : List Char} {c : Char}, (stripEndL l).getLast? = some c →
      pyWsB c = false := by
  intro l
  induction l with
  | nil => intro c h; simp [stripEndL] at h
  | cons x rest ih =>
    intro c h
    by_cases hc : ((stripEndL rest).isEmpty && pyWsB x) = true
    · rw [show stripEndL (x :: rest) = [] from by
        simp only [stripEndL]; rw [if_pos hc]] at h
      simp at h
    · rw [show stripEndL (x :: rest) = x :: stripEndL rest from by
        simp only [stripEndL]; rw [if_neg hc]] at h
      cases hrv : stripEndL rest with
      | nil =>
        rw [hrv] at h
        simp only [List.getLast?_singleton, Option.some.injEq] at h
        rw [← h]
        cases hw : pyWsB x
        · rfl
        · exact absurd (by rw [hrv, hw]; rfl) hc
      | cons z tl =>
        rw [hrv] at h
        rw [List.getLast?_cons_cons] at h
        exact ih (hrv ▸ h)

theorem stripEnd_of_last :
    ∀ l : List Char, (∀ c, l.getLast? = some c → pyWsB c = false) →
      stripEndL l = l := by
  intro l
  induction l with
  | nil => intro _; rfl
  | cons x rest ih =>
    intro h
    cases rest with
    | nil =>
      have hx : pyWsB x = false := h x (by simp)
      show (if ((stripEndL []).isEmpty && pyWsB x) = true then []
            else x :: stripEndL []) = [x]
      rw [show stripEndL [] = [] from rfl]
      simp [hx]
    | cons y rest2 =>
      have hsub : stripEndL (y :: rest2) = y :: rest2 := by
        apply ih
        intro c hc
        exact h c (by rw [List.getLast?_cons_cons]; exact hc)
      show (if ((stripEndL (y :: rest2)).isEmpty && pyWsB x) = true then []
            else x :: stripEndL (y :: rest2)) = x :: y :: rest2
      rw [hsub]
      simp

theorem stripL_idem (l : List Char) : stripL (stripL l) = stripL l := by
  have hdw : (stripL l).dropWhile pyWsB = stripL l := by
    cases hx : stripL l with
    | nil => rfl
    | cons c rest =>
      have hpc : pyWsB c = false := by
        unfold stripL at hx
        obtain ⟨m, hm⟩ := stripEnd_decomp (l.dropWhile pyWsB)
        rw [hx] at hm
        exact @dropWhile_head_false pyWsB l c (rest ++ m) (by rw [hm]; rfl)
      rw [List.dropWhile_cons_of_neg (by simp [hpc])]
  show stripEndL ((stripL l).dropWhile pyWsB) = stripL l
  rw [hdw]
  apply stripEnd_of_last
  intro c hc
  exact @stripEnd_last_false (l.dropWhile pyWsB) c hc

theorem noTwo_stripL {l : List Char} (h : noTwoB l = true) :
    noTwoB (stripL l) = true :=
  noTwo_stripEnd (noTwo_dropWhile h)

theorem normL_idem (l : List Char) : normL (normL l) = normL l := by
  have hmem : ∀ c ∈ normL l, ∃ d, c = uniFn d := by
    intro c hc
    have h1 : c ∈ collapseL ((l.map uniFn).filter (fun c => c ≠ '\n')) :=
      mem_of_stripL hc
    have h2 : c ∈ (l.map uniFn).filter (fun c => c ≠ '\n') := mem_of_collapse h1
    have h3 : c ∈ l.map uniFn := (List.mem_filter.mp h2).1
    obtain ⟨d, _, hd⟩ := List.mem_map.mp h3
    exact ⟨d, hd.symm⟩
  have hmap : (normL l).map uniFn = normL l := by
    apply map_id_of_fixed
    intro c hc
    obtain ⟨d, hd⟩ := hmem c hc
    rw [hd, uniFn_idem]
  have hfilter : (normL l).filter (fun c => c ≠ '\n') = normL l := by
    rw [List.filter_eq_self]
    intro c hc
    have h1 : c ∈ collapseL ((l.map uniFn).filter (fun c => c ≠ '\n')) :=
      mem_of_stripL hc
    have h2 : c ∈ (l.map uniFn).filter (fun c => c ≠ '\n') := mem_of_collapse h1
    exact (List.mem_filter.mp h2).2
  have hnoTwo : noTwoB (normL l) = true :=
    noTwo_stripL (noTwo_collapse _)
  have hcollapse : collapseL (normL l) = normL l := collapse_of_noTwo _ hnoTwo
  show stripL (collapseL (((normL l).map uniFn).filter (fun c => c ≠ '\n'))) = normL l
  rw [hmap, hfilter, hcollapse]
  exact stripL_idem _

/-- C9: the whitespace-normalization step — replace the fixed Unicode space
variants by ASCII spaces, remove newlines, collapse space runs, strip — is
idempotent on every input string. -/
theorem c9_normalize_idempotent (s : String) :
    normalizeWhitespace (normalizeWhitespace s) = normalizeWhitespace s := by
  rw [normalizeWhitespace_eq s, normalizeWhitespace_eq (strOf (normL s.data)),
      data_strOf]
  rw [normL_idem]

/-! Claim C8 infrastructure: clean section texts and append lemmas. -/

def introChars : List Char :=
  ['I', 'N', 'T', 'R', 'O', 'D', 'U', 'C', 'T', 'I', 'O', 'N']

def resultsChars : List Char := ['R', 'E', 'S', 'U', 'L', 'T', 'S']

/-- A section text that the normalization pipeline leaves unchanged: nonempty,
not starting or ending in Python whitespace, fixed by the Unicode-space
substitution, newline-free, and with no two adjacent ASCII spaces. -/
def cleanTextB (s : String) : Bool :=
  match s.data with
  | [] => false
  | c0 :: _ =>
    !pyWsB c0 && !pyWsB (s.data.getLastD ' ') &&
    s.data.all (fun c => (uniFn c == c) && !(c == '\n')) && noTwoB s.data

theorem cleanParts {t : String} (h : cleanTextB t = true) :
    (∃ c0 rest, t.data = c0 :: rest ∧ pyWsB c0 = false) ∧
    (∀ g, t.data.getLast? = some g → pyWsB g = false) ∧
    t.data.map uniFn = t.data ∧
    t.data.filter (fun c => c ≠ '\n') = t.data ∧
    noTwoB t.data = true := by
  unfold cleanTextB at h
  cases hd : t.data with
  | nil => rw [hd] at h; simp at h
  | cons c0 rest =>
    rw [hd] at h
    obtain ⟨h123, hnt⟩ := bool_and_split h
    obtain ⟨h12, hall⟩ := bool_and_split h123
    obtain ⟨hh, hl⟩ := bool_and_split h12
    have hhead : pyWsB c0 = false := by
      cases hv : pyWsB c0
      · rfl
      · rw [hv] at hh; simp at hh
    have hlastD : pyWsB ((c0 :: rest).getLastD ' ') = false := by
      cases hv : pyWsB ((c0 :: rest).getLastD ' ')
      · rfl
      · rw [hv] at hl; simp at hl
    have hallP : ∀ c ∈ c0 :: rest, (uniFn c = c) ∧ c ≠ '\n' := by
      intro c hc
      have := List.all_eq_true.mp hall c hc
      obtain ⟨hu, hn⟩ := bool_and_split this
      refine ⟨beq_iff_eq.mp hu, ?_⟩
      intro hcon
      rw [hcon] at hn
      simp at hn
    refine ⟨⟨c0, rest, rfl, hhead⟩, ?_, ?_, ?_, hnt⟩
    · intro g hg
      have : (c0 :: rest).getLastD ' ' = g := by
        rw [List.getLastD_eq_getLast?, hg]
        rfl
      rw [← this]
      exact hlastD
    · exact map_id_of_fixed uniFn (c0 :: rest) (fun c hc => (hallP c hc).1)
    · rw [List.filter_eq_self]
      intro c hc
      simpa using (hallP c hc).2

theorem pyStrip_clean {t : String} (h : cleanTextB t = true) : pyStrip t = t := by
  obtain ⟨⟨c0, rest, hd, hws⟩, hlast, _, _, _⟩ := cleanParts h
  show strOf (stripEndL (t.data.dropWhile pyWsB)) = t
  have h1 : t.data.dropWhile pyWsB = t.data := by
    rw [hd]
    exact List.dropWhile_cons_of_neg (by simp [hws])
  rw [h1, stripEnd_of_last t.data hlast, strOf_data]

theorem dropWhile_append_all {p : Char → Bool} :
    ∀ (w rest : List Char), (∀ c ∈ w, p c = true) →
      (w ++ rest).dropWhile p = rest.dropWhile p := by
  intro w
  induction w with
  | nil => intro rest _; rfl
  | cons c w2 ih =>
    intro rest h
    show ((c :: (w2 ++ rest)).dropWhile p) = rest.dropWhile p
    rw [List.dropWhile_cons_of_pos (h c (List.mem_cons_self c w2))]
    exact ih rest (fun d hd => h d (List.mem_cons_of_mem c hd))

theorem getLast?_append_right : ∀ (x : List Char) {y : List Char}, y ≠ [] →
    (x ++ y).getLast? = y.getLast? := by
  intro x
  induction x with
  | nil => intro y _; rfl
  | cons c x2 ih =>
    intro y hy
    show (c :: (x2 ++ y)).getLast? = y.getLast?
    cases hxy : x2 ++ y with
    | nil => exact absurd (List.append_eq_nil.mp hxy).2 hy
    | cons hh tt =>
      rw [List.getLast?_cons_cons, ← hxy]
      exact ih hy

theorem stripL_ws_lead (w m : List Char) (hw : ∀ c ∈ w, pyWsB c = true)
    (hm : m.dropWhile pyWsB = m) : stripL (w ++ m) = stripEndL m := by
  show stripEndL ((w ++ m).dropWhile pyWsB) = stripEndL m
  rw [dropWhile_append_all w m hw, hm]

theorem collapse_cons_space {X : List Char} (h : X.head? ≠ some ' ') :
    collapseL (' ' :: X) = ' ' :: collapseL X := by
  cases X with
  | nil => rfl
  | cons d rest =>
    have hd : (d == ' ') = false := by
      cases hv : d == ' '
      · rfl
      · exact absurd (show (d :: rest).head? = some ' ' from by
          rw [beq_iff_eq.mp hv]; rfl) h
    show (if (' ' == ' ' && d == ' ') = true then collapseL (d :: rest)
          else ' ' :: collapseL (d :: rest)) = ' ' :: collapseL (d :: rest)
    rw [if_neg (by simp [hd])]

theorem collapse_append_left : ∀ (x y : List Char), x.getLast? ≠ some ' ' →
    collapseL (x ++ y) = collapseL x ++ collapseL y := by
  intro x
  induction x with
  | nil => intro y _; rfl
  | cons c x2 ih =>
    intro y h
    cases x2 with
    | nil =>
      have hc : (c == ' ') = false := by
        cases hv : c == ' '
        · rfl
        · exact absurd (show ([c] : List Char).getLast? = some ' ' from by
            rw [beq_iff_eq.mp hv]; simp) h
      cases y with
      | nil => simp [collapseL]
      | cons d y2 =>
        show collapseL (c :: d :: y2) = collapseL [c] ++ collapseL (d :: y2)
        rw [show collapseL (c :: d :: y2) = c :: collapseL (d :: y2) from by
          simp only [collapseL]; rw [if_neg (by simp [beq_eq_false_iff_ne.mp hc])]]
        rfl
    | cons e x3 =>
      have htail : (e :: x3).getLast? ≠ some ' ' := by
        intro hcon
        exact h (by rw [List.getLast?_cons_cons]; exact hcon)
      by_cases hsp : (c == ' ' && e == ' ') = true
      · rw [show collapseL ((c :: e :: x3) ++ y) = collapseL ((e :: x3) ++ y) from by
          show collapseL (c :: e :: (x3 ++ y)) = _
          simp only [collapseL]; rw [if_pos hsp]; rfl]
        rw [ih y htail]
        rw [show collapseL (c :: e :: x3) = collapseL (e :: x3) from by
          simp only [collapseL]; rw [if_pos hsp]]
      · rw [show collapseL ((c :: e :: x3) ++ y) = c :: collapseL ((e :: x3) ++ y) from by
          show collapseL (c :: e :: (x3 ++ y)) = _
          simp only [collapseL]; rw [if_neg hsp]; rfl]
        rw [ih y htail]
        rw [show collapseL (c :: e :: x3) = c :: collapseL (e :: x3) from by
          simp only [collapseL]; rw [if_neg hsp]]
        rfl

theorem ne_space_of_not_ws {c : Char} (h : pyWsB c = false) : c ≠ ' ' := by
  intro hcon
  rw [hcon, show pyWsB ' ' = true from by decide] at h
  cases h

theorem getLast_ne_space {l : List Char}
    (h : ∀ g, l.getLast? = some g → pyWsB g = false) : l.getLast? ≠ some ' ' := by
  intro hcon
  have h2 := h ' ' hcon
  rw [show pyWsB ' ' = true from by decide] at h2
  cases h2

theorem head_ne_space_append {l X : List Char} {c0 : Char} {rest : List Char}
    (hd : l = c0 :: rest) (hw : pyWsB c0 = false) : (l ++ X).head? ≠ some ' ' := by
  rw [hd]
  intro hcon
  simp only [List.cons_append, List.head?_cons, Option.some.injEq] at hcon
  exact ne_space_of_not_ws hw hcon

theorem head_ne_space {l : List Char} {c0 : Char} {rest : List Char}
    (hd : l = c0 :: rest) (hw : pyWsB c0 = false) : l.head? ≠ some ' ' := by
  rw [hd]
  intro hcon
  simp only [List.head?_cons, Option.some.injEq] at hcon
  exact ne_space_of_not_ws hw hcon

theorem getLast?_cons_of_ne {c : Char} {z : List Char} (hz : z ≠ []) :
    (c :: z).getLast? = z.getLast? := getLast?_append_right [c] hz

theorem dropWhile_cons_append {c : Char} {l X : List Char} (hc : pyWsB c = false) :
    ((c :: l) ++ X).dropWhile pyWsB = (c :: l) ++ X :=
  List.dropWhile_cons_of_neg (by simp [hc])

theorem c8_abstract_value (t1 t2 t3 : String)
    (h1 : cleanTextB t1 = true) (h2 : cleanTextB t2 = true)
    (h3 : cleanTextB t3 = true) :
    normalizeWhitespace (pyStrip (pyJoin " "
      ["\n", "INTRODUCTION", pyStrip t1, pyStrip t2, "\n", "RESULTS", pyStrip t3]))
    = "INTRODUCTION " ++ t1 ++ " " ++ t2 ++ " RESULTS " ++ t3 := by
  obtain ⟨⟨a0, arest, hda, hwa⟩, hlast1, hmap1, hfil1, hnt1⟩ := cleanParts h1
  obtain ⟨⟨b0, brest, hdb, hwb⟩, hlast2, hmap2, hfil2, hnt2⟩ := cleanParts h2
  obtain ⟨⟨c0, crest, hdc, hwc⟩, hlast3, hmap3, hfil3, hnt3⟩ := cleanParts h3
  rw [pyStrip_clean h1, pyStrip_clean h2, pyStrip_clean h3]
  have hJ : (pyJoin " " ["\n", "INTRODUCTION", t1, t2, "\n", "RESULTS", t3]).data
      = ['\n', ' '] ++ (introChars ++ (' ' :: (t1.data ++ (' ' :: (t2.data
        ++ (' ' :: '\n' :: ' ' :: (resultsChars ++ (' ' :: t3.data)))))))) := by
    show ((("\n" : String) ++ " ") ++ (("INTRODUCTION" ++ " ") ++ ((t1 ++ " ")
      ++ ((t2 ++ " ") ++ (("\n" ++ " ") ++ (("RESULTS" ++ " ") ++ t3)))))).data = _
    simp [data_append, introChars, resultsChars, List.append_assoc]
  have hML : (introChars ++ (' ' :: (t1.data ++ (' ' :: (t2.data
        ++ (' ' :: '\n' :: ' ' :: (resultsChars ++ (' ' :: t3.data)))))))).getLast?
      = t3.data.getLast? := by
    rw [getLast?_append_right introChars (by simp),
        getLast?_cons_of_ne (by rw [hda]; simp),
        getLast?_append_right t1.data (by simp),
        getLast?_cons_of_ne (by rw [hdb]; simp),
        getLast?_append_right t2.data (by simp),
        getLast?_cons_of_ne (by simp),
        getLast?_cons_of_ne (by simp),
        getLast?_cons_of_ne (by simp),
        getLast?_append_right resultsChars (by simp),
        getLast?_cons_of_ne (by rw [hdc]; simp)]
  have hlastM : ∀ g, (introChars ++ (' ' :: (t1.data ++ (' ' :: (t2.data
        ++ (' ' :: '\n' :: ' ' :: (resultsChars ++ (' ' :: t3.data)))))))).getLast?
        = some g → pyWsB g = false := by
    intro g hg
    rw [hML] at hg
    exact hlast3 g hg
  have hPD : (pyStrip (pyJoin " " ["\n", "INTRODUCTION", t1, t2, "\n", "RESULTS", t3])).data
      = introChars ++ (' ' :: (t1.data ++ (' ' :: (t2.data
        ++ (' ' :: '\n' :: ' ' :: (resultsChars ++ (' ' :: t3.data))))))) := by
    show stripL ((pyJoin " " ["\n", "INTRODUCTION", t1, t2, "\n", "RESULTS", t3]).data)
        = _
    rw [hJ]
    have hdropM : (introChars ++ (' ' :: (t1.data ++ (' ' :: (t2.data
        ++ (' ' :: '\n' :: ' ' :: (resultsChars ++ (' ' :: t3.data)))))))).dropWhile pyWsB
        = introChars ++ (' ' :: (t1.data ++ (' ' :: (t2.data
        ++ (' ' :: '\n' :: ' ' :: (resultsChars ++ (' ' :: t3.data))))))) :=
      dropWhile_cons_append (by decide)
    rw [stripL_ws_lead ['\n', ' '] _ (by decide) hdropM]
    exact stripEnd_of_last _ hlastM
  have hmapM : (introChars ++ (' ' :: (t1.data ++ (' ' :: (t2.data
        ++ (' ' :: '\n' :: ' ' :: (resultsChars ++ (' ' :: t3.data)))))))).map uniFn
      = introChars ++ (' ' :: (t1.data ++ (' ' :: (t2.data
        ++ (' ' :: '\n' :: ' ' :: (resultsChars ++ (' ' :: t3.data))))))) := by
    simp only [List.map_append, List.map_cons]
    rw [show introChars.map uniFn = introChars from by decide,
        show resultsChars.map uniFn = resultsChars from by decide,
        show uniFn ' ' = ' ' from by decide,
        show uniFn '\n' = '\n' from by decide,
        hmap1, hmap2, hmap3]
  have hfilM : (introChars ++ (' ' :: (t1.data ++ (' ' :: (t2.data
        ++ (' ' :: '\n' :: ' ' :: (resultsChars ++ (' ' :: t3.data)))))))).filter
          (fun c => c ≠ '\n')
      = introChars ++ (' ' :: (t1.data ++ (' ' :: (t2.data
        ++ (' ' :: ' ' :: (resultsChars ++ (' ' :: t3.data))))))) := by
    simp only [List.filter_append, List.filter_cons]
    rw [show introChars.filter (fun c => c ≠ '\n') = introChars from by decide,
        show resultsChars.filter (fun c => c ≠ '\n') = resultsChars from by decide,
        hfil1, hfil2, hfil3]
    simp
  have hc3 : collapseL (' ' :: t3.data) = ' ' :: t3.data := by
    rw [collapse_cons_space (head_ne_space hdc hwc), collapse_of_noTwo _ hnt3]
  have hW : collapseL (resultsChars ++ (' ' :: t3.data))
      = resultsChars ++ (' ' :: t3.data) := by
    rw [collapse_append_left resultsChars _ (by decide), hc3,
        show collapseL resultsChars = resultsChars from by decide]
  have hY3 : collapseL (' ' :: ' ' :: (resultsChars ++ (' ' :: t3.data)))
      = ' ' :: (resultsChars ++ (' ' :: t3.data)) := by
    rw [show collapseL (' ' :: ' ' :: (resultsChars ++ (' ' :: t3.data)))
        = collapseL (' ' :: (resultsChars ++ (' ' :: t3.data))) from by
      simp only [collapseL]; rw [if_pos (by decide)]]
    rw [@collapse_cons_space (resultsChars ++ (' ' :: t3.data))
        (@head_ne_space_append resultsChars (' ' :: t3.data) 'R'
          ['E', 'S', 'U', 'L', 'T', 'S'] rfl (by decide)), hW]
  have hZ2 : collapseL (t2.data ++ (' ' :: ' ' :: (resultsChars ++ (' ' :: t3.data))))
      = t2.data ++ (' ' :: (resultsChars ++ (' ' :: t3.data))) := by
    rw [collapse_append_left t2.data _ (getLast_ne_space hlast2),
        collapse_of_noTwo _ hnt2, hY3]
  have hY2 : collapseL (' ' :: (t2.data ++ (' ' :: ' ' :: (resultsChars
        ++ (' ' :: t3.data)))))
      = ' ' :: (t2.data ++ (' ' :: (resultsChars ++ (' ' :: t3.data)))) := by
    rw [@collapse_cons_space (t2.data ++ (' ' :: ' ' :: (resultsChars ++ (' ' :: t3.data))))
        (@head_ne_space_append t2.data (' ' :: ' ' :: (resultsChars ++ (' ' :: t3.data)))
          b0 brest hdb hwb), hZ2]
  have hZ1 : collapseL (t1.data ++ (' ' :: (t2.data ++ (' ' :: ' ' :: (resultsChars
        ++ (' ' :: t3.data))))))
      = t1.data ++ (' ' :: (t2.data ++ (' ' :: (resultsChars ++ (' ' :: t3.data))))) := by
    rw [collapse_append_left t1.data _ (getLast_ne_space hlast1),
        collapse_of_noTwo _ hnt1, hY2]
  have hY1 : collapseL (' ' :: (t1.data ++ (' ' :: (t2.data ++ (' ' :: ' ' :: (resultsChars
        ++ (' ' :: t3.data)))))))
      = ' ' :: (t1.data ++ (' ' :: (t2.data ++ (' ' :: (resultsChars
        ++ (' ' :: t3.data)))))) := by
    rw [@collapse_cons_space (t1.data ++ (' ' :: (t2.data ++ (' ' :: ' ' :: (resultsChars
        ++ (' ' :: t3.data))))))
        (@head_ne_space_append t1.data (' ' :: (t2.data ++ (' ' :: ' ' :: (resultsChars
          ++ (' ' :: t3.data))))) a0 arest hda hwa), hZ1]
  have hcolM : collapseL (introChars ++ (' ' :: (t1.data ++ (' ' :: (t2.data
        ++ (' ' :: ' ' :: (resultsChars ++ (' ' :: t3.data))))))))
      = introChars ++ (' ' :: (t1.data ++ (' ' :: (t2.data
        ++ (' ' :: (resultsChars ++ (' ' :: t3.data))))))) := by
    rw [collapse_append_left introChars _ (by decide),
        show collapseL introChars = introChars from by decide, hY1]
  have hML3 : (introChars ++ (' ' :: (t1.data ++ (' ' :: (t2.data
        ++ (' ' :: (resultsChars ++ (' ' :: t3.data)))))))).getLast?
      = t3.data.getLast? := by
    rw [getLast?_append_right introChars (by simp),
        getLast?_cons_of_ne (by rw [hda]; simp),
        getLast?_append_right t1.data (by simp),
        getLast?_cons_of_ne (by rw [hdb]; simp),
        getLast?_append_right t2.data (by simp),
        getLast?_cons_of_ne (by simp),
        getLast?_append_right resultsChars (by simp),
        getLast?_cons_of_ne (by rw [hdc]; simp)]
  have hstrip3 : stripL (introChars ++ (' ' :: (t1.data ++ (' ' :: (t2.data
        ++ (' ' :: (resultsChars ++ (' ' :: t3.data))))))))
      = introChars ++ (' ' :: (t1.data ++ (' ' :: (t2.data
        ++ (' ' :: (resultsChars ++ (' ' :: t3.data))))))) := by
    have hdrop3 : (introChars ++ (' ' :: (t1.data ++ (' ' :: (t2.data
        ++ (' ' :: (resultsChars ++ (' ' :: t3.data)))))))).dropWhile pyWsB
        = introChars ++ (' ' :: (t1.data ++ (' ' :: (t2.data
        ++ (' ' :: (resultsChars ++ (' ' :: t3.data))))))) :=
      dropWhile_cons_append (by decide)
    show stripEndL _ = _
    rw [hdrop3]
    apply stripEnd_of_last
    intro g hg
    rw [hML3] at hg
    exact hlast3 g hg
  have htarget : ("INTRODUCTION " ++ t1 ++ " " ++ t2 ++ " RESULTS " ++ t3).data
      = introChars ++ (' ' :: (t1.data ++ (' ' :: (t2.data
        ++ (' ' :: (resultsChars ++ (' ' :: t3.data))))))) := by
    simp [data_append, introChars, resultsChars, List.append_assoc]
  rw [normalizeWhitespace_eq, hPD]
  have hnorm : normL (introChars ++ (' ' :: (t1.data ++ (' ' :: (t2.data
        ++ (' ' :: '\n' :: ' ' :: (resultsChars ++ (' ' :: t3.data))))))))
      = introChars ++ (' ' :: (t1.data ++ (' ' :: (t2.data
        ++ (' ' :: (resultsChars ++ (' ' :: t3.data))))))) := by
    show stripL (collapseL _) = _
    rw [hmapM, hfilM, hcolM, hstrip3]
  rw [hnorm, ← strOf_data ("INTRODUCTION " ++ t1 ++ " " ++ t2 ++ " RESULTS " ++ t3),
      htarget]

/-- Record assembled from c8cite with incl_sections true; the abstract keeps
the raw pipeline shape so that the evaluation lemma is definitional. -/
def c8rec (t1 t2 t3 : String) : MedlineRecord :=
  { title := .str "T"
  , abstract := .str (normalizeWhitespace (pyStrip (pyJoin " "
      ["\n", "INTRODUCTION", pyStrip (t1 ++ ""), pyStrip (t2 ++ ""), "\n",
       "RESULTS", pyStrip (t3 ++ "")])))
  , journal := .str "J", author := .str "", affiliation := .str ""
  , pubdate := .str "2000", pmid := .str "1", mesh_terms := .str ""
  , publication_types := .str "", chemical_list := .str "", keywords := .str ""
  , doi := .str "", pmc := .str "", other_id := .str "", medline_ta := .str ""
  , nlm_unique_id := .str "", issn_linking := .str "", country := .str ""
  , delete := false }

set_option maxHeartbeats 3200000 in
theorem c8_parse_eval (t1 t2 t3 : String) (yio nc : Bool) :
    parse_article_info (c8cite t1 t2 t3) yio nc none none true
      = .ok (c8rec t1 t2 t3) := by
  cases yio <;> cases nc <;> rfl

/-- C8: on a citation with sections labeled INTRODUCTION, UNASSIGNED and
RESULTS whose texts are normalization-stable and do not contain the string
UNASSIGNED, the labeled assembly yields exactly
"INTRODUCTION t1 t2 RESULTS t3": the labels INTRODUCTION and RESULTS occur in
the abstract, the UNASSIGNED section text is still included, and the literal
string UNASSIGNED never occurs. -/
theorem c8_structured_abstract :
    ∀ (t1 t2 t3 : String) (yio nc : Bool) (r : MedlineRecord),
      cleanTextB t1 = true → cleanTextB t2 = true → cleanTextB t3 = true →
      pyIn "UNASSIGNED" t1 = false → pyIn "UNASSIGNED" t2 = false →
      pyIn "UNASSIGNED" t3 = false →
      parse_article_info (c8cite t1 t2 t3) yio nc none none true = .ok r →
      r.abstract = .str ("INTRODUCTION " ++ t1 ++ " " ++ t2 ++ " RESULTS " ++ t3) ∧
      pyIn "INTRODUCTION"
        ("INTRODUCTION " ++ t1 ++ " " ++ t2 ++ " RESULTS " ++ t3) = true ∧
      pyIn "RESULTS"
        ("INTRODUCTION " ++ t1 ++ " " ++ t2 ++ " RESULTS " ++ t3) = true ∧
      pyIn t2
        ("INTRODUCTION " ++ t1 ++ " " ++ t2 ++ " RESULTS " ++ t3) = true ∧
      pyIn "UNASSIGNED"
        ("INTRODUCTION " ++ t1 ++ " " ++ t2 ++ " RESULTS " ++ t3) = false := by
  intro t1 t2 t3 yio nc r hc1 hc2 hc3 hu1 hu2 hu3 h
  have heval := c8_parse_eval t1 t2 t3 yio nc
  rw [h] at heval
  have hr : r = c8rec t1 t2 t3 := by
    simpa using heval
  subst hr
  have htarget : ("INTRODUCTION " ++ t1 ++ " " ++ t2 ++ " RESULTS " ++ t3).data
      = introChars ++ (' ' :: (t1.data ++ (' ' :: (t2.data
        ++ (' ' :: (resultsChars ++ (' ' :: t3.data))))))) := by
    simp [data_append, introChars, resultsChars, List.append_assoc]
  have habs : (c8rec t1 t2 t3).abstract
      = .str ("INTRODUCTION " ++ t1 ++ " " ++ t2 ++ " RESULTS " ++ t3) := by
    show FieldVal.str (normalizeWhitespace (pyStrip (pyJoin " "
      ["\n", "INTRODUCTION", pyStrip (t1 ++ ""), pyStrip (t2 ++ ""), "\n",
       "RESULTS", pyStrip (t3 ++ "")]))) = _
    rw [strAppendEmpty t1, strAppendEmpty t2, strAppendEmpty t3]
    rw [c8_abstract_value t1 t2 t3 hc1 hc2 hc3]
  refine ⟨habs, ?_, ?_, ?_, ?_⟩
  · show containsSubL ("INTRODUCTION".data)
      (("INTRODUCTION " ++ t1 ++ " " ++ t2 ++ " RESULTS " ++ t3).data) = true
    rw [htarget]
    exact containsSubL_of_startsWithL (startsWithL_refl_append introChars _)
  · show containsSubL ("RESULTS".data)
      (("INTRODUCTION " ++ t1 ++ " " ++ t2 ++ " RESULTS " ++ t3).data) = true
    rw [htarget]
    exact containsSubL_append_left introChars
      (containsSubL_append_left [' ']
        (containsSubL_append_left t1.data
          (containsSubL_append_left [' ']
            (containsSubL_append_left t2.data
              (containsSubL_append_left [' ']
                (containsSubL_of_startsWithL
                  (startsWithL_refl_append resultsChars (' ' :: t3.data))))))))
  · show containsSubL (t2.data)
      (("INTRODUCTION " ++ t1 ++ " " ++ t2 ++ " RESULTS " ++ t3).data) = true
    rw [htarget]
    exact containsSubL_append_left introChars
      (containsSubL_append_left [' ']
        (containsSubL_append_left t1.data
          (containsSubL_append_left [' ']
            (containsSubL_of_startsWithL
              (startsWithL_refl_append t2.data
                (' ' :: (resultsChars ++ (' ' :: t3.data))))))))
  · show containsSubL ("UNASSIGNED".data)
      (("INTRODUCTION " ++ t1 ++ " " ++ t2 ++ " RESULTS " ++ t3).data) = false
    rw [htarget]
    have hp : ("UNASSIGNED" : String).data ≠ [] := by decide
    have hsp : (' ' : Char) ∉ ("UNASSIGNED" : String).data := by decide
    exact @containsSubL_sep ("UNASSIGNED" : String).data hp ' ' hsp introChars
      (t1.data ++ (' ' :: (t2.data ++ (' ' :: (resultsChars ++ (' ' :: t3.data))))))
      (by decide)
      (@containsSubL_sep ("UNASSIGNED" : String).data hp ' ' hsp t1.data
        (t2.data ++ (' ' :: (resultsChars ++ (' ' :: t3.data)))) hu1
        (@containsSubL_sep ("UNASSIGNED" : String).data hp ' ' hsp t2.data
          (resultsChars ++ (' ' :: t3.data)) hu2
          (@containsSubL_sep ("UNASSIGNED" : String).data hp ' ' hsp resultsChars
            t3.data (by decide) hu3)))

/-- C8 witness: the labeled-assembly facts at concrete section texts. -/
theorem c8_structured_abstract_witness :
    (c8rec "alpha" "beta" "gamma").abstract
      = .str ("INTRODUCTION " ++ "alpha" ++ " " ++ "beta" ++ " RESULTS " ++ "gamma") ∧
    pyIn "INTRODUCTION"
      ("INTRODUCTION " ++ "alpha" ++ " " ++ "beta" ++ " RESULTS " ++ "gamma") = true ∧
    pyIn "UNASSIGNED"
      ("INTRODUCTION " ++ "alpha" ++ " " ++ "beta" ++ " RESULTS " ++ "gamma") = false := by
  obtain ⟨h1, h2, h3, h4, h5⟩ := c8_structured_abstract "alpha" "beta" "gamma"
    true false (c8rec "alpha" "beta" "gamma") (by decide) (by decide) (by decide)
    (by decide) (by decide) (by decide) (c8_parse_eval "alpha" "beta" "gamma" true false)
  exact ⟨h1, h2, h5⟩
